import Mathlib

/-!
# The AWS Support client binding (`gen/support/support.go`)

A shallow embedding of the Go package `support`: the record types with their
`json` struct tags, the constructor `New`, and the fourteen methods of
`Support`, each of which hands its request to the transport method
`aws.JSONClient.Do`.

Conventions of the embedding:

* A Go string is the list of its bytes, valid UTF-8 or not.  A Go slice is
  `none` when it is nil and `some` of the list of its elements otherwise, so
  the empty slice that is not nil is `some []`.  Go `int` is `Int`.
* A Go struct type is described, as Go's reflection sees it, by the list of its
  fields: Go name, json key, the `omitempty` flag and the field type.  A value
  of a struct type is the tuple of its field values in declaration order.
* The transport is a parameter.  It receives the client configuration, the
  action, the verb, the path, the request (with its dynamic type), the response
  slot (with its dynamic type) and the state of the outside world, and gives
  back the slot contents, the error and the new state of the world.
* The serialization that the transport applies to requests and responses is
  Go's `encoding/json`, driven by the struct tags of this file.  Its rules for
  the kinds that occur here are written out below over JSON values.
-/

namespace support

/-! ## Go types and values -/

/-- A Go `float64`: a finite number, a NaN, or an infinity with its sign. -/
inductive Float64 where
  | finite (q : ℚ)
  | nan
  | inf (neg : Bool)
deriving DecidableEq, Repr

mutual
/-- The Go types that occur in the file. -/
inductive GoType where
  | string
  | bool
  | int
  | float64
  | bytes
  | slice (elem : GoType)
  | struct (name : String) (fields : Fields)
/-- The field list of a struct type: Go name, json key, omitempty, type. -/
inductive Fields where
  | nil
  | cons (name key : String) (omitempty : Bool) (type : GoType) (rest : Fields)
end

mutual
/-- The Lean type of the values of a Go type. -/
def GoType.Val : GoType → Type
  | .string => List (Fin 256)
  | .bool => Bool
  | .int => Int
  | .float64 => Float64
  | .bytes => Option (List (Fin 256))
  | .slice t => Option (List t.Val)
  | .struct _ fs => fs.Val
/-- The tuple of field values of a struct. -/
def Fields.Val : Fields → Type
  | .nil => Unit
  | .cons _ _ _ t rest => t.Val × rest.Val
end

mutual
/-- The zero value of a Go type, what `T{}` and a fresh slot hold. -/
def GoType.zero : (T : GoType) → T.Val
  | .string => ([] : List (Fin 256))
  | .bool => false
  | .int => (0 : Int)
  | .float64 => Float64.finite 0
  | .bytes => (none : Option (List (Fin 256)))
  | .slice t => (none : Option (List t.Val))
  | .struct _ fs => fs.zero
/-- The zero value of every field. -/
def Fields.zero : (fs : Fields) → fs.Val
  | .nil => ()
  | .cons _ _ _ t rest => (t.zero, rest.zero)
end

mutual
/-- Equality of Go values is decidable. -/
def GoType.decEq : (T : GoType) → DecidableEq T.Val
  | .string => inferInstanceAs (DecidableEq (List (Fin 256)))
  | .bool => inferInstanceAs (DecidableEq Bool)
  | .int => inferInstanceAs (DecidableEq Int)
  | .float64 => inferInstanceAs (DecidableEq Float64)
  | .bytes => inferInstanceAs (DecidableEq (Option (List (Fin 256))))
  | .slice t =>
    have := t.decEq
    inferInstanceAs (DecidableEq (Option (List t.Val)))
  | .struct _ fs => fs.decEq
/-- Equality of field tuples is decidable. -/
def Fields.decEq : (fs : Fields) → DecidableEq fs.Val
  | .nil => inferInstanceAs (DecidableEq Unit)
  | .cons _ _ _ t rest =>
    have := t.decEq
    have := rest.decEq
    inferInstanceAs (DecidableEq (t.Val × rest.Val))
end

instance (T : GoType) : DecidableEq T.Val := T.decEq

/-! ## The record types of the file

Each definition lists the fields of the Go struct of the same name in
declaration order, with the key and the `omitempty` flag of its json tag.  A
struct that is used as a field type is declared before its users. -/

/-- The Go struct type Attachment with its json tags. -/
@[reducible] def Attachment : GoType := .struct "Attachment" <|
  .cons "Data" "data" true .bytes <|
  .cons "FileName" "fileName" true .string <|
  .nil

/-- The Go struct type AddAttachmentsToSetRequest with its json tags. -/
@[reducible] def AddAttachmentsToSetRequest : GoType := .struct "AddAttachmentsToSetRequest" <|
  .cons "AttachmentSetID" "attachmentSetId" true .string <|
  .cons "Attachments" "attachments" false (.slice Attachment) <|
  .nil

/-- The Go struct type AddAttachmentsToSetResponse with its json tags. -/
@[reducible] def AddAttachmentsToSetResponse : GoType := .struct "AddAttachmentsToSetResponse" <|
  .cons "AttachmentSetID" "attachmentSetId" true .string <|
  .cons "ExpiryTime" "expiryTime" true .string <|
  .nil

/-- The Go struct type AddCommunicationToCaseRequest with its json tags. -/
@[reducible] def AddCommunicationToCaseRequest : GoType := .struct "AddCommunicationToCaseRequest" <|
  .cons "AttachmentSetID" "attachmentSetId" true .string <|
  .cons "CaseID" "caseId" true .string <|
  .cons "CcEmailAddresses" "ccEmailAddresses" true (.slice .string) <|
  .cons "CommunicationBody" "communicationBody" false .string <|
  .nil

/-- The Go struct type AddCommunicationToCaseResponse with its json tags. -/
@[reducible] def AddCommunicationToCaseResponse : GoType := .struct "AddCommunicationToCaseResponse" <|
  .cons "Result" "result" true .bool <|
  .nil

/-- The Go struct type AttachmentDetails with its json tags. -/
@[reducible] def AttachmentDetails : GoType := .struct "AttachmentDetails" <|
  .cons "AttachmentID" "attachmentId" true .string <|
  .cons "FileName" "fileName" true .string <|
  .nil

/-- The Go struct type Communication with its json tags. -/
@[reducible] def Communication : GoType := .struct "Communication" <|
  .cons "AttachmentSet" "attachmentSet" true (.slice AttachmentDetails) <|
  .cons "Body" "body" true .string <|
  .cons "CaseID" "caseId" true .string <|
  .cons "SubmittedBy" "submittedBy" true .string <|
  .cons "TimeCreated" "timeCreated" true .string <|
  .nil

/-- The Go struct type RecentCaseCommunications with its json tags. -/
@[reducible] def RecentCaseCommunications : GoType := .struct "RecentCaseCommunications" <|
  .cons "Communications" "communications" true (.slice Communication) <|
  .cons "NextToken" "nextToken" true .string <|
  .nil

/-- The Go struct type CaseDetails with its json tags. -/
@[reducible] def CaseDetails : GoType := .struct "CaseDetails" <|
  .cons "CaseID" "caseId" true .string <|
  .cons "CategoryCode" "categoryCode" true .string <|
  .cons "CcEmailAddresses" "ccEmailAddresses" true (.slice .string) <|
  .cons "DisplayID" "displayId" true .string <|
  .cons "Language" "language" true .string <|
  .cons "RecentCommunications" "recentCommunications" true RecentCaseCommunications <|
  .cons "ServiceCode" "serviceCode" true .string <|
  .cons "SeverityCode" "severityCode" true .string <|
  .cons "Status" "status" true .string <|
  .cons "Subject" "subject" true .string <|
  .cons "SubmittedBy" "submittedBy" true .string <|
  .cons "TimeCreated" "timeCreated" true .string <|
  .nil

/-- The Go struct type Category with its json tags. -/
@[reducible] def Category : GoType := .struct "Category" <|
  .cons "Code" "code" true .string <|
  .cons "Name" "name" true .string <|
  .nil

/-- The Go struct type CreateCaseRequest with its json tags. -/
@[reducible] def CreateCaseRequest : GoType := .struct "CreateCaseRequest" <|
  .cons "AttachmentSetID" "attachmentSetId" true .string <|
  .cons "CategoryCode" "categoryCode" true .string <|
  .cons "CcEmailAddresses" "ccEmailAddresses" true (.slice .string) <|
  .cons "CommunicationBody" "communicationBody" false .string <|
  .cons "IssueType" "issueType" true .string <|
  .cons "Language" "language" true .string <|
  .cons "ServiceCode" "serviceCode" true .string <|
  .cons "SeverityCode" "severityCode" true .string <|
  .cons "Subject" "subject" false .string <|
  .nil

/-- The Go struct type CreateCaseResponse with its json tags. -/
@[reducible] def CreateCaseResponse : GoType := .struct "CreateCaseResponse" <|
  .cons "CaseID" "caseId" true .string <|
  .nil

/-- The Go struct type DescribeAttachmentRequest with its json tags. -/
@[reducible] def DescribeAttachmentRequest : GoType := .struct "DescribeAttachmentRequest" <|
  .cons "AttachmentID" "attachmentId" false .string <|
  .nil

/-- The Go struct type DescribeAttachmentResponse with its json tags. -/
@[reducible] def DescribeAttachmentResponse : GoType := .struct "DescribeAttachmentResponse" <|
  .cons "Attachment" "attachment" true Attachment <|
  .nil

/-- The Go struct type DescribeCasesRequest with its json tags. -/
@[reducible] def DescribeCasesRequest : GoType := .struct "DescribeCasesRequest" <|
  .cons "AfterTime" "afterTime" true .string <|
  .cons "BeforeTime" "beforeTime" true .string <|
  .cons "CaseIDList" "caseIdList" true (.slice .string) <|
  .cons "DisplayID" "displayId" true .string <|
  .cons "IncludeCommunications" "includeCommunications" true .bool <|
  .cons "IncludeResolvedCases" "includeResolvedCases" true .bool <|
  .cons "Language" "language" true .string <|
  .cons "MaxResults" "maxResults" true .int <|
  .cons "NextToken" "nextToken" true .string <|
  .nil

/-- The Go struct type DescribeCasesResponse with its json tags. -/
@[reducible] def DescribeCasesResponse : GoType := .struct "DescribeCasesResponse" <|
  .cons "Cases" "cases" true (.slice CaseDetails) <|
  .cons "NextToken" "nextToken" true .string <|
  .nil

/-- The Go struct type DescribeCommunicationsRequest with its json tags. -/
@[reducible] def DescribeCommunicationsRequest : GoType := .struct "DescribeCommunicationsRequest" <|
  .cons "AfterTime" "afterTime" true .string <|
  .cons "BeforeTime" "beforeTime" true .string <|
  .cons "CaseID" "caseId" false .string <|
  .cons "MaxResults" "maxResults" true .int <|
  .cons "NextToken" "nextToken" true .string <|
  .nil

/-- The Go struct type DescribeCommunicationsResponse with its json tags. -/
@[reducible] def DescribeCommunicationsResponse : GoType := .struct "DescribeCommunicationsResponse" <|
  .cons "Communications" "communications" true (.slice Communication) <|
  .cons "NextToken" "nextToken" true .string <|
  .nil

/-- The Go struct type DescribeServicesRequest with its json tags. -/
@[reducible] def DescribeServicesRequest : GoType := .struct "DescribeServicesRequest" <|
  .cons "Language" "language" true .string <|
  .cons "ServiceCodeList" "serviceCodeList" true (.slice .string) <|
  .nil

/-- The Go struct type Service with its json tags. -/
@[reducible] def Service : GoType := .struct "Service" <|
  .cons "Categories" "categories" true (.slice Category) <|
  .cons "Code" "code" true .string <|
  .cons "Name" "name" true .string <|
  .nil

/-- The Go struct type DescribeServicesResponse with its json tags. -/
@[reducible] def DescribeServicesResponse : GoType := .struct "DescribeServicesResponse" <|
  .cons "Services" "services" true (.slice Service) <|
  .nil

/-- The Go struct type DescribeSeverityLevelsRequest with its json tags. -/
@[reducible] def DescribeSeverityLevelsRequest : GoType := .struct "DescribeSeverityLevelsRequest" <|
  .cons "Language" "language" true .string <|
  .nil

/-- The Go struct type SeverityLevel with its json tags. -/
@[reducible] def SeverityLevel : GoType := .struct "SeverityLevel" <|
  .cons "Code" "code" true .string <|
  .cons "Name" "name" true .string <|
  .nil

/-- The Go struct type DescribeSeverityLevelsResponse with its json tags. -/
@[reducible] def DescribeSeverityLevelsResponse : GoType := .struct "DescribeSeverityLevelsResponse" <|
  .cons "SeverityLevels" "severityLevels" true (.slice SeverityLevel) <|
  .nil

/-- The Go struct type DescribeTrustedAdvisorCheckRefreshStatusesRequest with its json tags. -/
@[reducible] def DescribeTrustedAdvisorCheckRefreshStatusesRequest : GoType := .struct "DescribeTrustedAdvisorCheckRefreshStatusesRequest" <|
  .cons "CheckIds" "checkIds" false (.slice .string) <|
  .nil

/-- The Go struct type TrustedAdvisorCheckRefreshStatus with its json tags. -/
@[reducible] def TrustedAdvisorCheckRefreshStatus : GoType := .struct "TrustedAdvisorCheckRefreshStatus" <|
  .cons "CheckID" "checkId" false .string <|
  .cons "MillisUntilNextRefreshable" "millisUntilNextRefreshable" false .int <|
  .cons "Status" "status" false .string <|
  .nil

/-- The Go struct type DescribeTrustedAdvisorCheckRefreshStatusesResponse with its json tags. -/
@[reducible] def DescribeTrustedAdvisorCheckRefreshStatusesResponse : GoType := .struct "DescribeTrustedAdvisorCheckRefreshStatusesResponse" <|
  .cons "Statuses" "statuses" false (.slice TrustedAdvisorCheckRefreshStatus) <|
  .nil

/-- The Go struct type DescribeTrustedAdvisorCheckResultRequest with its json tags. -/
@[reducible] def DescribeTrustedAdvisorCheckResultRequest : GoType := .struct "DescribeTrustedAdvisorCheckResultRequest" <|
  .cons "CheckID" "checkId" false .string <|
  .cons "Language" "language" true .string <|
  .nil

/-- The Go struct type TrustedAdvisorCostOptimizingSummary with its json tags. -/
@[reducible] def TrustedAdvisorCostOptimizingSummary : GoType := .struct "TrustedAdvisorCostOptimizingSummary" <|
  .cons "EstimatedMonthlySavings" "estimatedMonthlySavings" false .float64 <|
  .cons "EstimatedPercentMonthlySavings" "estimatedPercentMonthlySavings" false .float64 <|
  .nil

/-- The Go struct type TrustedAdvisorCategorySpecificSummary with its json tags. -/
@[reducible] def TrustedAdvisorCategorySpecificSummary : GoType := .struct "TrustedAdvisorCategorySpecificSummary" <|
  .cons "CostOptimizing" "costOptimizing" true TrustedAdvisorCostOptimizingSummary <|
  .nil

/-- The Go struct type TrustedAdvisorResourceDetail with its json tags. -/
@[reducible] def TrustedAdvisorResourceDetail : GoType := .struct "TrustedAdvisorResourceDetail" <|
  .cons "IsSuppressed" "isSuppressed" true .bool <|
  .cons "Metadata" "metadata" false (.slice .string) <|
  .cons "Region" "region" false .string <|
  .cons "ResourceID" "resourceId" false .string <|
  .cons "Status" "status" false .string <|
  .nil

/-- The Go struct type TrustedAdvisorResourcesSummary with its json tags. -/
@[reducible] def TrustedAdvisorResourcesSummary : GoType := .struct "TrustedAdvisorResourcesSummary" <|
  .cons "ResourcesFlagged" "resourcesFlagged" false .int <|
  .cons "ResourcesIgnored" "resourcesIgnored" false .int <|
  .cons "ResourcesProcessed" "resourcesProcessed" false .int <|
  .cons "ResourcesSuppressed" "resourcesSuppressed" false .int <|
  .nil

/-- The Go struct type TrustedAdvisorCheckResult with its json tags. -/
@[reducible] def TrustedAdvisorCheckResult : GoType := .struct "TrustedAdvisorCheckResult" <|
  .cons "CategorySpecificSummary" "categorySpecificSummary" false TrustedAdvisorCategorySpecificSummary <|
  .cons "CheckID" "checkId" false .string <|
  .cons "FlaggedResources" "flaggedResources" false (.slice TrustedAdvisorResourceDetail) <|
  .cons "ResourcesSummary" "resourcesSummary" false TrustedAdvisorResourcesSummary <|
  .cons "Status" "status" false .string <|
  .cons "Timestamp" "timestamp" false .string <|
  .nil

/-- The Go struct type DescribeTrustedAdvisorCheckResultResponse with its json tags. -/
@[reducible] def DescribeTrustedAdvisorCheckResultResponse : GoType := .struct "DescribeTrustedAdvisorCheckResultResponse" <|
  .cons "Result" "result" true TrustedAdvisorCheckResult <|
  .nil

/-- The Go struct type DescribeTrustedAdvisorCheckSummariesRequest with its json tags. -/
@[reducible] def DescribeTrustedAdvisorCheckSummariesRequest : GoType := .struct "DescribeTrustedAdvisorCheckSummariesRequest" <|
  .cons "CheckIds" "checkIds" false (.slice .string) <|
  .nil

/-- The Go struct type TrustedAdvisorCheckSummary with its json tags. -/
@[reducible] def TrustedAdvisorCheckSummary : GoType := .struct "TrustedAdvisorCheckSummary" <|
  .cons "CategorySpecificSummary" "categorySpecificSummary" false TrustedAdvisorCategorySpecificSummary <|
  .cons "CheckID" "checkId" false .string <|
  .cons "HasFlaggedResources" "hasFlaggedResources" true .bool <|
  .cons "ResourcesSummary" "resourcesSummary" false TrustedAdvisorResourcesSummary <|
  .cons "Status" "status" false .string <|
  .cons "Timestamp" "timestamp" false .string <|
  .nil

/-- The Go struct type DescribeTrustedAdvisorCheckSummariesResponse with its json tags. -/
@[reducible] def DescribeTrustedAdvisorCheckSummariesResponse : GoType := .struct "DescribeTrustedAdvisorCheckSummariesResponse" <|
  .cons "Summaries" "summaries" false (.slice TrustedAdvisorCheckSummary) <|
  .nil

/-- The Go struct type DescribeTrustedAdvisorChecksRequest with its json tags. -/
@[reducible] def DescribeTrustedAdvisorChecksRequest : GoType := .struct "DescribeTrustedAdvisorChecksRequest" <|
  .cons "Language" "language" false .string <|
  .nil

/-- The Go struct type TrustedAdvisorCheckDescription with its json tags. -/
@[reducible] def TrustedAdvisorCheckDescription : GoType := .struct "TrustedAdvisorCheckDescription" <|
  .cons "Category" "category" false .string <|
  .cons "Description" "description" false .string <|
  .cons "ID" "id" false .string <|
  .cons "Metadata" "metadata" false (.slice .string) <|
  .cons "Name" "name" false .string <|
  .nil

/-- The Go struct type DescribeTrustedAdvisorChecksResponse with its json tags. -/
@[reducible] def DescribeTrustedAdvisorChecksResponse : GoType := .struct "DescribeTrustedAdvisorChecksResponse" <|
  .cons "Checks" "checks" false (.slice TrustedAdvisorCheckDescription) <|
  .nil

/-- The Go struct type RefreshTrustedAdvisorCheckRequest with its json tags. -/
@[reducible] def RefreshTrustedAdvisorCheckRequest : GoType := .struct "RefreshTrustedAdvisorCheckRequest" <|
  .cons "CheckID" "checkId" false .string <|
  .nil

/-- The Go struct type RefreshTrustedAdvisorCheckResponse with its json tags. -/
@[reducible] def RefreshTrustedAdvisorCheckResponse : GoType := .struct "RefreshTrustedAdvisorCheckResponse" <|
  .cons "Status" "status" false TrustedAdvisorCheckRefreshStatus <|
  .nil

/-- The Go struct type ResolveCaseRequest with its json tags. -/
@[reducible] def ResolveCaseRequest : GoType := .struct "ResolveCaseRequest" <|
  .cons "CaseID" "caseId" true .string <|
  .nil

/-- The Go struct type ResolveCaseResponse with its json tags. -/
@[reducible] def ResolveCaseResponse : GoType := .struct "ResolveCaseResponse" <|
  .cons "FinalCaseStatus" "finalCaseStatus" true .string <|
  .cons "InitialCaseStatus" "initialCaseStatus" true .string <|
  .nil

/-- The record types declared in the file, by name. -/
inductive Record where
  | AddAttachmentsToSetRequest
  | AddAttachmentsToSetResponse
  | AddCommunicationToCaseRequest
  | AddCommunicationToCaseResponse
  | Attachment
  | AttachmentDetails
  | CaseDetails
  | Category
  | Communication
  | CreateCaseRequest
  | CreateCaseResponse
  | DescribeAttachmentRequest
  | DescribeAttachmentResponse
  | DescribeCasesRequest
  | DescribeCasesResponse
  | DescribeCommunicationsRequest
  | DescribeCommunicationsResponse
  | DescribeServicesRequest
  | DescribeServicesResponse
  | DescribeSeverityLevelsRequest
  | DescribeSeverityLevelsResponse
  | DescribeTrustedAdvisorCheckRefreshStatusesRequest
  | DescribeTrustedAdvisorCheckRefreshStatusesResponse
  | DescribeTrustedAdvisorCheckResultRequest
  | DescribeTrustedAdvisorCheckResultResponse
  | DescribeTrustedAdvisorCheckSummariesRequest
  | DescribeTrustedAdvisorCheckSummariesResponse
  | DescribeTrustedAdvisorChecksRequest
  | DescribeTrustedAdvisorChecksResponse
  | RecentCaseCommunications
  | RefreshTrustedAdvisorCheckRequest
  | RefreshTrustedAdvisorCheckResponse
  | ResolveCaseRequest
  | ResolveCaseResponse
  | Service
  | SeverityLevel
  | TrustedAdvisorCategorySpecificSummary
  | TrustedAdvisorCheckDescription
  | TrustedAdvisorCheckRefreshStatus
  | TrustedAdvisorCheckResult
  | TrustedAdvisorCheckSummary
  | TrustedAdvisorCostOptimizingSummary
  | TrustedAdvisorResourceDetail
  | TrustedAdvisorResourcesSummary
deriving DecidableEq, Repr

/-- The struct type that the name stands for. -/
@[reducible] def Record.type : Record → GoType
  | .AddAttachmentsToSetRequest => support.AddAttachmentsToSetRequest
  | .AddAttachmentsToSetResponse => support.AddAttachmentsToSetResponse
  | .AddCommunicationToCaseRequest => support.AddCommunicationToCaseRequest
  | .AddCommunicationToCaseResponse => support.AddCommunicationToCaseResponse
  | .Attachment => support.Attachment
  | .AttachmentDetails => support.AttachmentDetails
  | .CaseDetails => support.CaseDetails
  | .Category => support.Category
  | .Communication => support.Communication
  | .CreateCaseRequest => support.CreateCaseRequest
  | .CreateCaseResponse => support.CreateCaseResponse
  | .DescribeAttachmentRequest => support.DescribeAttachmentRequest
  | .DescribeAttachmentResponse => support.DescribeAttachmentResponse
  | .DescribeCasesRequest => support.DescribeCasesRequest
  | .DescribeCasesResponse => support.DescribeCasesResponse
  | .DescribeCommunicationsRequest => support.DescribeCommunicationsRequest
  | .DescribeCommunicationsResponse => support.DescribeCommunicationsResponse
  | .DescribeServicesRequest => support.DescribeServicesRequest
  | .DescribeServicesResponse => support.DescribeServicesResponse
  | .DescribeSeverityLevelsRequest => support.DescribeSeverityLevelsRequest
  | .DescribeSeverityLevelsResponse => support.DescribeSeverityLevelsResponse
  | .DescribeTrustedAdvisorCheckRefreshStatusesRequest => support.DescribeTrustedAdvisorCheckRefreshStatusesRequest
  | .DescribeTrustedAdvisorCheckRefreshStatusesResponse => support.DescribeTrustedAdvisorCheckRefreshStatusesResponse
  | .DescribeTrustedAdvisorCheckResultRequest => support.DescribeTrustedAdvisorCheckResultRequest
  | .DescribeTrustedAdvisorCheckResultResponse => support.DescribeTrustedAdvisorCheckResultResponse
  | .DescribeTrustedAdvisorCheckSummariesRequest => support.DescribeTrustedAdvisorCheckSummariesRequest
  | .DescribeTrustedAdvisorCheckSummariesResponse => support.DescribeTrustedAdvisorCheckSummariesResponse
  | .DescribeTrustedAdvisorChecksRequest => support.DescribeTrustedAdvisorChecksRequest
  | .DescribeTrustedAdvisorChecksResponse => support.DescribeTrustedAdvisorChecksResponse
  | .RecentCaseCommunications => support.RecentCaseCommunications
  | .RefreshTrustedAdvisorCheckRequest => support.RefreshTrustedAdvisorCheckRequest
  | .RefreshTrustedAdvisorCheckResponse => support.RefreshTrustedAdvisorCheckResponse
  | .ResolveCaseRequest => support.ResolveCaseRequest
  | .ResolveCaseResponse => support.ResolveCaseResponse
  | .Service => support.Service
  | .SeverityLevel => support.SeverityLevel
  | .TrustedAdvisorCategorySpecificSummary => support.TrustedAdvisorCategorySpecificSummary
  | .TrustedAdvisorCheckDescription => support.TrustedAdvisorCheckDescription
  | .TrustedAdvisorCheckRefreshStatus => support.TrustedAdvisorCheckRefreshStatus
  | .TrustedAdvisorCheckResult => support.TrustedAdvisorCheckResult
  | .TrustedAdvisorCheckSummary => support.TrustedAdvisorCheckSummary
  | .TrustedAdvisorCostOptimizingSummary => support.TrustedAdvisorCostOptimizingSummary
  | .TrustedAdvisorResourceDetail => support.TrustedAdvisorResourceDetail
  | .TrustedAdvisorResourcesSummary => support.TrustedAdvisorResourcesSummary

/-- Every record type in the order of the source. -/
def Record.all : List Record :=
  [.AddAttachmentsToSetRequest,
   .AddAttachmentsToSetResponse,
   .AddCommunicationToCaseRequest,
   .AddCommunicationToCaseResponse,
   .Attachment,
   .AttachmentDetails,
   .CaseDetails,
   .Category,
   .Communication,
   .CreateCaseRequest,
   .CreateCaseResponse,
   .DescribeAttachmentRequest,
   .DescribeAttachmentResponse,
   .DescribeCasesRequest,
   .DescribeCasesResponse,
   .DescribeCommunicationsRequest,
   .DescribeCommunicationsResponse,
   .DescribeServicesRequest,
   .DescribeServicesResponse,
   .DescribeSeverityLevelsRequest,
   .DescribeSeverityLevelsResponse,
   .DescribeTrustedAdvisorCheckRefreshStatusesRequest,
   .DescribeTrustedAdvisorCheckRefreshStatusesResponse,
   .DescribeTrustedAdvisorCheckResultRequest,
   .DescribeTrustedAdvisorCheckResultResponse,
   .DescribeTrustedAdvisorCheckSummariesRequest,
   .DescribeTrustedAdvisorCheckSummariesResponse,
   .DescribeTrustedAdvisorChecksRequest,
   .DescribeTrustedAdvisorChecksResponse,
   .RecentCaseCommunications,
   .RefreshTrustedAdvisorCheckRequest,
   .RefreshTrustedAdvisorCheckResponse,
   .ResolveCaseRequest,
   .ResolveCaseResponse,
   .Service,
   .SeverityLevel,
   .TrustedAdvisorCategorySpecificSummary,
   .TrustedAdvisorCheckDescription,
   .TrustedAdvisorCheckRefreshStatus,
   .TrustedAdvisorCheckResult,
   .TrustedAdvisorCheckSummary,
   .TrustedAdvisorCostOptimizingSummary,
   .TrustedAdvisorResourceDetail,
   .TrustedAdvisorResourcesSummary]

/-! ## The client and its transport -/

/-- A non-nil `error` value handed back by the transport. -/
structure Error where
  msg : String
deriving DecidableEq, Repr

/-- A non-nil `*http.Client`, identified by its address. -/
structure HTTPClient where
  addr : Nat
deriving DecidableEq, Repr

/-- The configuration `aws.JSONClient`, with the fields that `New` sets. -/
structure JSONClient where
  Client : HTTPClient
  Region : String
  Endpoint : String
  Prefix : String
  Key : String
  Secret : String
  JSONVersion : String
  TargetPrefix : String
deriving DecidableEq, Repr

/-- The struct `Support`: a client holding its configuration. -/
structure Support where
  client : JSONClient
deriving DecidableEq, Repr

/-- The characters `fmt.Sprintf` prints for a format and one string operand:
the first `%s` is replaced by the operand, a later `%s` has no operand left,
and an operand that no verb consumed is reported at the end. -/
def sprintfChars : List Char → Option String → List Char
  | '%' :: 's' :: rest, some arg => arg.data ++ sprintfChars rest none
  | '%' :: 's' :: rest, none => "%!s(MISSING)".data ++ sprintfChars rest none
  | c :: rest, arg => c :: sprintfChars rest arg
  | [], some arg => "%!(EXTRA string=".data ++ arg.data ++ [')']
  | [], none => []

/-- The call `fmt.Sprintf(format, arg)` with a string operand. -/
def Sprintf (format : String) (arg : String) : String :=
  ⟨sprintfChars format.data (some arg)⟩

/-- The constructor `New`.  The nil client is `none`; `DefaultClient` is the
value of the package variable `http.DefaultClient`. -/
def New (DefaultClient : HTTPClient) (key secret region : String)
    (client : Option HTTPClient) : Support :=
  let client := match client with
    | none => DefaultClient
    | some cl => cl
  { client :=
      { Client := client
        Region := region
        Endpoint := Sprintf "https://support.%s.amazonaws.com" region
        Prefix := "support"
        Key := key
        Secret := secret
        JSONVersion := "1.1"
        TargetPrefix := "AWSSupport_20130415" } }

/-- What one call of `Do` leaves behind: the contents of the response slot,
the error (`none` is nil) and the state of the outside world. -/
structure DoResult (Rs : GoType) (σ : Type) where
  resp : Rs.Val
  err : Option Error
  world : σ

/-- The transport method `(*aws.JSONClient).Do(action, method, path, req, resp)`:
the request and the slot arrive as interface values, that is with their dynamic
types, and the world is threaded through the call. -/
abbrev Transport (σ : Type) :=
  JSONClient → String → String → String →
    (Rq : GoType) → Rq.Val → (Rs : GoType) → Rs.Val → σ → DoResult Rs σ

/-- What a method returns and leaves behind: the response pointer (`none` is
nil), the error, the receiver after the call and the state of the world. -/
structure Outcome (Rs : GoType) (σ : Type) where
  resp : Option Rs.Val
  err : Option Error
  self : Support
  world : σ

/-! ## The methods of Support -/

/-- The method AddAttachmentsToSet of the source: a fresh AddAttachmentsToSetResponse, one call of Do. -/
def Support.AddAttachmentsToSet (c : Support) (Do : Transport σ)
    (req : AddAttachmentsToSetRequest.Val) (w : σ) : Outcome AddAttachmentsToSetResponse σ :=
  let resp := AddAttachmentsToSetResponse.zero
  let r := Do c.client "AddAttachmentsToSet" "POST" "/" AddAttachmentsToSetRequest req AddAttachmentsToSetResponse resp w
  ⟨some r.resp, r.err, c, r.world⟩

/-- The method AddCommunicationToCase of the source: a fresh AddCommunicationToCaseResponse, one call of Do. -/
def Support.AddCommunicationToCase (c : Support) (Do : Transport σ)
    (req : AddCommunicationToCaseRequest.Val) (w : σ) : Outcome AddCommunicationToCaseResponse σ :=
  let resp := AddCommunicationToCaseResponse.zero
  let r := Do c.client "AddCommunicationToCase" "POST" "/" AddCommunicationToCaseRequest req AddCommunicationToCaseResponse resp w
  ⟨some r.resp, r.err, c, r.world⟩

/-- The method CreateCase of the source: a fresh CreateCaseResponse, one call of Do. -/
def Support.CreateCase (c : Support) (Do : Transport σ)
    (req : CreateCaseRequest.Val) (w : σ) : Outcome CreateCaseResponse σ :=
  let resp := CreateCaseResponse.zero
  let r := Do c.client "CreateCase" "POST" "/" CreateCaseRequest req CreateCaseResponse resp w
  ⟨some r.resp, r.err, c, r.world⟩

/-- The method DescribeAttachment of the source: a fresh DescribeAttachmentResponse, one call of Do. -/
def Support.DescribeAttachment (c : Support) (Do : Transport σ)
    (req : DescribeAttachmentRequest.Val) (w : σ) : Outcome DescribeAttachmentResponse σ :=
  let resp := DescribeAttachmentResponse.zero
  let r := Do c.client "DescribeAttachment" "POST" "/" DescribeAttachmentRequest req DescribeAttachmentResponse resp w
  ⟨some r.resp, r.err, c, r.world⟩

/-- The method DescribeCases of the source: a fresh DescribeCasesResponse, one call of Do. -/
def Support.DescribeCases (c : Support) (Do : Transport σ)
    (req : DescribeCasesRequest.Val) (w : σ) : Outcome DescribeCasesResponse σ :=
  let resp := DescribeCasesResponse.zero
  let r := Do c.client "DescribeCases" "POST" "/" DescribeCasesRequest req DescribeCasesResponse resp w
  ⟨some r.resp, r.err, c, r.world⟩

/-- The method DescribeCommunications of the source: a fresh DescribeCommunicationsResponse, one call of Do. -/
def Support.DescribeCommunications (c : Support) (Do : Transport σ)
    (req : DescribeCommunicationsRequest.Val) (w : σ) : Outcome DescribeCommunicationsResponse σ :=
  let resp := DescribeCommunicationsResponse.zero
  let r := Do c.client "DescribeCommunications" "POST" "/" DescribeCommunicationsRequest req DescribeCommunicationsResponse resp w
  ⟨some r.resp, r.err, c, r.world⟩

/-- The method DescribeServices of the source: a fresh DescribeServicesResponse, one call of Do. -/
def Support.DescribeServices (c : Support) (Do : Transport σ)
    (req : DescribeServicesRequest.Val) (w : σ) : Outcome DescribeServicesResponse σ :=
  let resp := DescribeServicesResponse.zero
  let r := Do c.client "DescribeServices" "POST" "/" DescribeServicesRequest req DescribeServicesResponse resp w
  ⟨some r.resp, r.err, c, r.world⟩

/-- The method DescribeSeverityLevels of the source: a fresh DescribeSeverityLevelsResponse, one call of Do. -/
def Support.DescribeSeverityLevels (c : Support) (Do : Transport σ)
    (req : DescribeSeverityLevelsRequest.Val) (w : σ) : Outcome DescribeSeverityLevelsResponse σ :=
  let resp := DescribeSeverityLevelsResponse.zero
  let r := Do c.client "DescribeSeverityLevels" "POST" "/" DescribeSeverityLevelsRequest req DescribeSeverityLevelsResponse resp w
  ⟨some r.resp, r.err, c, r.world⟩

/-- The method DescribeTrustedAdvisorCheckRefreshStatuses of the source: a fresh DescribeTrustedAdvisorCheckRefreshStatusesResponse, one call of Do. -/
def Support.DescribeTrustedAdvisorCheckRefreshStatuses (c : Support) (Do : Transport σ)
    (req : DescribeTrustedAdvisorCheckRefreshStatusesRequest.Val) (w : σ) : Outcome DescribeTrustedAdvisorCheckRefreshStatusesResponse σ :=
  let resp := DescribeTrustedAdvisorCheckRefreshStatusesResponse.zero
  let r := Do c.client "DescribeTrustedAdvisorCheckRefreshStatuses" "POST" "/" DescribeTrustedAdvisorCheckRefreshStatusesRequest req DescribeTrustedAdvisorCheckRefreshStatusesResponse resp w
  ⟨some r.resp, r.err, c, r.world⟩

/-- The method DescribeTrustedAdvisorCheckResult of the source: a fresh DescribeTrustedAdvisorCheckResultResponse, one call of Do. -/
def Support.DescribeTrustedAdvisorCheckResult (c : Support) (Do : Transport σ)
    (req : DescribeTrustedAdvisorCheckResultRequest.Val) (w : σ) : Outcome DescribeTrustedAdvisorCheckResultResponse σ :=
  let resp := DescribeTrustedAdvisorCheckResultResponse.zero
  let r := Do c.client "DescribeTrustedAdvisorCheckResult" "POST" "/" DescribeTrustedAdvisorCheckResultRequest req DescribeTrustedAdvisorCheckResultResponse resp w
  ⟨some r.resp, r.err, c, r.world⟩

/-- The method DescribeTrustedAdvisorCheckSummaries of the source: a fresh DescribeTrustedAdvisorCheckSummariesResponse, one call of Do. -/
def Support.DescribeTrustedAdvisorCheckSummaries (c : Support) (Do : Transport σ)
    (req : DescribeTrustedAdvisorCheckSummariesRequest.Val) (w : σ) : Outcome DescribeTrustedAdvisorCheckSummariesResponse σ :=
  let resp := DescribeTrustedAdvisorCheckSummariesResponse.zero
  let r := Do c.client "DescribeTrustedAdvisorCheckSummaries" "POST" "/" DescribeTrustedAdvisorCheckSummariesRequest req DescribeTrustedAdvisorCheckSummariesResponse resp w
  ⟨some r.resp, r.err, c, r.world⟩

/-- The method DescribeTrustedAdvisorChecks of the source: a fresh DescribeTrustedAdvisorChecksResponse, one call of Do. -/
def Support.DescribeTrustedAdvisorChecks (c : Support) (Do : Transport σ)
    (req : DescribeTrustedAdvisorChecksRequest.Val) (w : σ) : Outcome DescribeTrustedAdvisorChecksResponse σ :=
  let resp := DescribeTrustedAdvisorChecksResponse.zero
  let r := Do c.client "DescribeTrustedAdvisorChecks" "POST" "/" DescribeTrustedAdvisorChecksRequest req DescribeTrustedAdvisorChecksResponse resp w
  ⟨some r.resp, r.err, c, r.world⟩

/-- The method RefreshTrustedAdvisorCheck of the source: a fresh RefreshTrustedAdvisorCheckResponse, one call of Do. -/
def Support.RefreshTrustedAdvisorCheck (c : Support) (Do : Transport σ)
    (req : RefreshTrustedAdvisorCheckRequest.Val) (w : σ) : Outcome RefreshTrustedAdvisorCheckResponse σ :=
  let resp := RefreshTrustedAdvisorCheckResponse.zero
  let r := Do c.client "RefreshTrustedAdvisorCheck" "POST" "/" RefreshTrustedAdvisorCheckRequest req RefreshTrustedAdvisorCheckResponse resp w
  ⟨some r.resp, r.err, c, r.world⟩

/-- The method ResolveCase of the source: a fresh ResolveCaseResponse, one call of Do. -/
def Support.ResolveCase (c : Support) (Do : Transport σ)
    (req : ResolveCaseRequest.Val) (w : σ) : Outcome ResolveCaseResponse σ :=
  let resp := ResolveCaseResponse.zero
  let r := Do c.client "ResolveCase" "POST" "/" ResolveCaseRequest req ResolveCaseResponse resp w
  ⟨some r.resp, r.err, c, r.world⟩

/-- The fourteen exported methods of Support. -/
inductive Operation where
  | AddAttachmentsToSet
  | AddCommunicationToCase
  | CreateCase
  | DescribeAttachment
  | DescribeCases
  | DescribeCommunications
  | DescribeServices
  | DescribeSeverityLevels
  | DescribeTrustedAdvisorCheckRefreshStatuses
  | DescribeTrustedAdvisorCheckResult
  | DescribeTrustedAdvisorCheckSummaries
  | DescribeTrustedAdvisorChecks
  | RefreshTrustedAdvisorCheck
  | ResolveCase
deriving DecidableEq, Repr

/-- Every operation, in the order of the source. -/
def Operation.all : List Operation :=
  [.AddAttachmentsToSet,
   .AddCommunicationToCase,
   .CreateCase,
   .DescribeAttachment,
   .DescribeCases,
   .DescribeCommunications,
   .DescribeServices,
   .DescribeSeverityLevels,
   .DescribeTrustedAdvisorCheckRefreshStatuses,
   .DescribeTrustedAdvisorCheckResult,
   .DescribeTrustedAdvisorCheckSummaries,
   .DescribeTrustedAdvisorChecks,
   .RefreshTrustedAdvisorCheck,
   .ResolveCase]

/-- The Go name of the method. -/
def Operation.name : Operation → String
  | .AddAttachmentsToSet => "AddAttachmentsToSet"
  | .AddCommunicationToCase => "AddCommunicationToCase"
  | .CreateCase => "CreateCase"
  | .DescribeAttachment => "DescribeAttachment"
  | .DescribeCases => "DescribeCases"
  | .DescribeCommunications => "DescribeCommunications"
  | .DescribeServices => "DescribeServices"
  | .DescribeSeverityLevels => "DescribeSeverityLevels"
  | .DescribeTrustedAdvisorCheckRefreshStatuses => "DescribeTrustedAdvisorCheckRefreshStatuses"
  | .DescribeTrustedAdvisorCheckResult => "DescribeTrustedAdvisorCheckResult"
  | .DescribeTrustedAdvisorCheckSummaries => "DescribeTrustedAdvisorCheckSummaries"
  | .DescribeTrustedAdvisorChecks => "DescribeTrustedAdvisorChecks"
  | .RefreshTrustedAdvisorCheck => "RefreshTrustedAdvisorCheck"
  | .ResolveCase => "ResolveCase"

/-- The request type in the signature of the method. -/
@[reducible] def Operation.Request : Operation → GoType
  | .AddAttachmentsToSet => AddAttachmentsToSetRequest
  | .AddCommunicationToCase => AddCommunicationToCaseRequest
  | .CreateCase => CreateCaseRequest
  | .DescribeAttachment => DescribeAttachmentRequest
  | .DescribeCases => DescribeCasesRequest
  | .DescribeCommunications => DescribeCommunicationsRequest
  | .DescribeServices => DescribeServicesRequest
  | .DescribeSeverityLevels => DescribeSeverityLevelsRequest
  | .DescribeTrustedAdvisorCheckRefreshStatuses => DescribeTrustedAdvisorCheckRefreshStatusesRequest
  | .DescribeTrustedAdvisorCheckResult => DescribeTrustedAdvisorCheckResultRequest
  | .DescribeTrustedAdvisorCheckSummaries => DescribeTrustedAdvisorCheckSummariesRequest
  | .DescribeTrustedAdvisorChecks => DescribeTrustedAdvisorChecksRequest
  | .RefreshTrustedAdvisorCheck => RefreshTrustedAdvisorCheckRequest
  | .ResolveCase => ResolveCaseRequest

/-- The response type in the signature of the method. -/
@[reducible] def Operation.Response : Operation → GoType
  | .AddAttachmentsToSet => AddAttachmentsToSetResponse
  | .AddCommunicationToCase => AddCommunicationToCaseResponse
  | .CreateCase => CreateCaseResponse
  | .DescribeAttachment => DescribeAttachmentResponse
  | .DescribeCases => DescribeCasesResponse
  | .DescribeCommunications => DescribeCommunicationsResponse
  | .DescribeServices => DescribeServicesResponse
  | .DescribeSeverityLevels => DescribeSeverityLevelsResponse
  | .DescribeTrustedAdvisorCheckRefreshStatuses => DescribeTrustedAdvisorCheckRefreshStatusesResponse
  | .DescribeTrustedAdvisorCheckResult => DescribeTrustedAdvisorCheckResultResponse
  | .DescribeTrustedAdvisorCheckSummaries => DescribeTrustedAdvisorCheckSummariesResponse
  | .DescribeTrustedAdvisorChecks => DescribeTrustedAdvisorChecksResponse
  | .RefreshTrustedAdvisorCheck => RefreshTrustedAdvisorCheckResponse
  | .ResolveCase => ResolveCaseResponse

/-- Calling the method that the operation names. -/
def Support.invoke (c : Support) (Do : Transport σ) :
    (op : Operation) → op.Request.Val → σ → Outcome op.Response σ
  | .AddAttachmentsToSet => c.AddAttachmentsToSet Do
  | .AddCommunicationToCase => c.AddCommunicationToCase Do
  | .CreateCase => c.CreateCase Do
  | .DescribeAttachment => c.DescribeAttachment Do
  | .DescribeCases => c.DescribeCases Do
  | .DescribeCommunications => c.DescribeCommunications Do
  | .DescribeServices => c.DescribeServices Do
  | .DescribeSeverityLevels => c.DescribeSeverityLevels Do
  | .DescribeTrustedAdvisorCheckRefreshStatuses => c.DescribeTrustedAdvisorCheckRefreshStatuses Do
  | .DescribeTrustedAdvisorCheckResult => c.DescribeTrustedAdvisorCheckResult Do
  | .DescribeTrustedAdvisorCheckSummaries => c.DescribeTrustedAdvisorCheckSummaries Do
  | .DescribeTrustedAdvisorChecks => c.DescribeTrustedAdvisorChecks Do
  | .RefreshTrustedAdvisorCheck => c.RefreshTrustedAdvisorCheck Do
  | .ResolveCase => c.ResolveCase Do

/-! ## Observing the calls of the transport -/

/-- One call of `Do` as the transport sees it. -/
structure Call where
  client : JSONClient
  action : String
  method : String
  path : String
  Rq : GoType
  req : Rq.Val
  Rs : GoType
  slot : Rs.Val

/-- The transport `Do` with a journal: every call is appended to the journal
that is kept next to the world, and is otherwise answered by `Do`. -/
def recording (Do : Transport σ) : Transport (List Call × σ) :=
  fun cl action method path Rq req Rs slot w =>
    let r := Do cl action method path Rq req Rs slot w.2
    ⟨r.resp, r.err, (w.1 ++ [⟨cl, action, method, path, Rq, req, Rs, slot⟩], r.world)⟩

/-- A call of a method by a user of the package. -/
structure Invocation where
  op : Operation
  req : op.Request.Val

/-- What the caller of a method gets back. -/
structure Returned where
  op : Operation
  resp : Option op.Response.Val
  err : Option Error

/-- A sequence of calls on one client, one after the other: the receiver and
the world that a call leaves behind are the ones the next call starts from. -/
def runCalls (Do : Transport σ) : List Invocation → Support → σ → List Returned × Support × σ
  | [], c, w => ([], c, w)
  | i :: rest, c, w =>
    let o := c.invoke Do i.op i.req w
    let r := runCalls Do rest o.self o.world
    (⟨i.op, o.resp, o.err⟩ :: r.1, r.2)


/-! ## Serialization: the rules of `encoding/json` for the struct tags -/

/-- A JSON value.  A number is identified by the value it is read as. -/
inductive JSON where
  | null
  | bool (b : Bool)
  | num (q : ℚ)
  | str (s : String)
  | arr (items : List JSON)
  | obj (members : List (String × JSON))

/-- The keys of a JSON object, in order; anything else has none. -/
def JSON.keys : JSON → List String
  | .obj members => members.map Prod.fst
  | _ => []

/-- The member of a JSON object under a key, the first one if it is repeated. -/
def JSON.member (key : String) : JSON → Option JSON
  | .obj members => (members.find? (fun m => m.1 == key)).map Prod.snd
  | _ => none

/-- The alphabet of the standard base64 encoding. -/
def b64Alphabet : List Char :=
  "ABCDEFGHIJKLMNOPQRSTUVWXYZabcdefghijklmnopqrstuvwxyz0123456789+/".data

/-- The character of a 6-bit group. -/
def b64Char (n : Nat) : Char := b64Alphabet.getD n '='

/-- The 6-bit group of a character of the alphabet. -/
def b64Index (c : Char) : Option Nat :=
  let i := b64Alphabet.indexOf c
  if i < 64 then some i else none

/-- Standard base64 with padding, as `encoding/json` writes a `[]byte`. -/
def b64Encode : List (Fin 256) → List Char
  | [] => []
  | [a] => [b64Char (a.val / 4), b64Char (a.val % 4 * 16), '=', '=']
  | [a, b] =>
    [b64Char (a.val / 4), b64Char (a.val % 4 * 16 + b.val / 16), b64Char (b.val % 16 * 4), '=']
  | a :: b :: c :: rest =>
    b64Char (a.val / 4) :: b64Char (a.val % 4 * 16 + b.val / 16) ::
      b64Char (b.val % 16 * 4 + c.val / 64) :: b64Char (c.val % 64) :: b64Encode rest

/-- A byte from a number, reduced to 8 bits. -/
def byteOf (n : Nat) : Fin 256 := ⟨n % 256, Nat.mod_lt n (by decide)⟩

/-- Decoding of standard base64 with padding; `none` is a decoding error. -/
def b64Decode : List Char → Option (List (Fin 256))
  | [] => some []
  | w :: x :: y :: z :: rest =>
    if z = '=' then
      if rest ≠ [] then none
      else if y = '=' then do
        let p ← b64Index w
        let q ← b64Index x
        some [byteOf (p * 4 + q / 16)]
      else do
        let p ← b64Index w
        let q ← b64Index x
        let r ← b64Index y
        some [byteOf (p * 4 + q / 16), byteOf (q % 16 * 16 + r / 4)]
    else do
      let p ← b64Index w
      let q ← b64Index x
      let r ← b64Index y
      let s ← b64Index z
      let tail ← b64Decode rest
      some (byteOf (p * 4 + q / 16) :: byteOf (q % 16 * 16 + r / 4) :: byteOf (r % 4 * 64 + s) :: tail)
  | _ => none

/-- Is the byte a continuation byte of UTF-8, 0x80 to 0xBF? -/
def isCont (b : Fin 256) : Bool := decide (0x80 ≤ b.val ∧ b.val ≤ 0xBF)

/-- The least second byte that may follow a leading byte (0xE0 and 0xF0 exclude
the overlong forms). -/
def secondLow (b0 : Fin 256) : Nat :=
  if b0.val = 0xE0 then 0xA0 else if b0.val = 0xF0 then 0x90 else 0x80

/-- The greatest second byte that may follow a leading byte (0xED excludes the
surrogates, 0xF4 the values above 0x10FFFF). -/
def secondHigh (b0 : Fin 256) : Nat :=
  if b0.val = 0xED then 0x9F else if b0.val = 0xF4 then 0x8F else 0xBF

/-- The code point encoded at the head of the bytes and the number of bytes
it takes (`utf8.DecodeRune`); `none` when the head is no valid encoding, which
Go reports as RuneError of width 1. -/
def decodeRune : List (Fin 256) → Option (Nat × Nat)
  | [] => none
  | b0 :: rest =>
    if b0.val < 0x80 then some (b0.val, 1)
    else if 0xC2 ≤ b0.val ∧ b0.val ≤ 0xDF then
      match rest with
      | b1 :: _ =>
        if isCont b1 then some ((b0.val - 0xC0) * 64 + (b1.val - 0x80), 2) else none
      | _ => none
    else if 0xE0 ≤ b0.val ∧ b0.val ≤ 0xEF then
      match rest with
      | b1 :: b2 :: _ =>
        if secondLow b0 ≤ b1.val ∧ b1.val ≤ secondHigh b0 ∧ isCont b2 = true then
          some ((b0.val - 0xE0) * 4096 + (b1.val - 0x80) * 64 + (b2.val - 0x80), 3)
        else none
      | _ => none
    else if 0xF0 ≤ b0.val ∧ b0.val ≤ 0xF4 then
      match rest with
      | b1 :: b2 :: b3 :: _ =>
        if secondLow b0 ≤ b1.val ∧ b1.val ≤ secondHigh b0 ∧ isCont b2 = true ∧
            isCont b3 = true then
          some ((b0.val - 0xF0) * 262144 + (b1.val - 0x80) * 4096 + (b2.val - 0x80) * 64 +
            (b3.val - 0x80), 4)
        else none
      | _ => none
    else none

/-- The text that `json.Marshal` writes for a Go string, rune by rune: a byte
that starts no valid encoding is written as U+FFFD and decoding goes on with
the next byte.  The first argument bounds the number of runes. -/
def utf8DecodeFuel : Nat → List (Fin 256) → List Char
  | 0, _ => []
  | fuel + 1, bs =>
    match bs with
    | [] => []
    | _ :: rest =>
      match decodeRune bs with
      | some (cp, size) => Char.ofNat cp :: utf8DecodeFuel fuel (bs.drop size)
      | none => Char.ofNat 0xFFFD :: utf8DecodeFuel fuel rest

/-- The text of a Go string, with U+FFFD for every invalid byte. -/
def utf8Decode (bs : List (Fin 256)) : List Char := utf8DecodeFuel bs.length bs

/-- Are the bytes valid UTF-8 (`utf8.ValidString`)?  The first argument
bounds the number of runes. -/
def validUTF8Fuel : Nat → List (Fin 256) → Bool
  | 0, bs => bs.isEmpty
  | fuel + 1, bs =>
    match bs with
    | [] => true
    | _ :: _ =>
      match decodeRune bs with
      | some (_, size) => validUTF8Fuel fuel (bs.drop size)
      | none => false

/-- Is the Go string valid UTF-8? -/
def validUTF8 (bs : List (Fin 256)) : Bool := validUTF8Fuel bs.length bs

/-- The UTF-8 encoding of a character (`utf8.EncodeRune`). -/
def encodeRune (c : Char) : List (Fin 256) :=
  if c.toNat < 0x80 then [byteOf c.toNat]
  else if c.toNat < 0x800 then [byteOf (0xC0 + c.toNat / 64), byteOf (0x80 + c.toNat % 64)]
  else if c.toNat < 0x10000 then
    [byteOf (0xE0 + c.toNat / 4096), byteOf (0x80 + c.toNat / 64 % 64),
      byteOf (0x80 + c.toNat % 64)]
  else
    [byteOf (0xF0 + c.toNat / 262144), byteOf (0x80 + c.toNat / 4096 % 64),
      byteOf (0x80 + c.toNat / 64 % 64), byteOf (0x80 + c.toNat % 64)]

/-- The bytes of a text in UTF-8, what the decoder stores for a JSON string. -/
def utf8Encode : List Char → List (Fin 256)
  | [] => []
  | c :: cs => encodeRune c ++ utf8Encode cs

/-- The Go string with the given text, as a string literal of Go denotes it. -/
def goString (s : String) : List (Fin 256) := utf8Encode s.data

/-- The length of a slice: 0 for the nil slice. -/
def sliceLen {α : Type} : Option (List α) → Nat
  | none => 0
  | some xs => xs.length

/-- The `omitempty` test of `encoding/json` (`isEmptyValue`): a string, a
slice or a byte slice of length 0 (nil or not), false, and 0 are empty; a
struct never is. -/
def isEmptyValue : (T : GoType) → T.Val → Bool
  | .string, s => List.length s == 0
  | .bool, b => !b
  | .int, i => @BEq.beq Int _ i 0
  | .float64, f => f == Float64.finite 0
  | .bytes, b => sliceLen b == 0
  | .slice _, xs => sliceLen xs == 0
  | .struct _ _, _ => false

/-- Is the value a slice that is empty but not nil? -/
def isNonNilEmpty : (T : GoType) → T.Val → Bool
  | .bytes, b => b == some []
  | .slice _, xs =>
    match xs with
    | some [] => true
    | _ => false
  | _, _ => false

mutual
/-- The JSON value `json.Marshal` writes for a Go value; `none` is the error
it reports for a float64 that is not a finite number.  A string is written as
its text, with U+FFFD for every invalid byte; a nil slice is written as null,
another slice as an array, a byte slice that is not nil as the base64 of its
bytes. -/
def GoType.marshal : (T : GoType) → T.Val → Option JSON
  | .string, s => some (.str ⟨utf8Decode s⟩)
  | .bool, b => some (.bool b)
  | .int, i => some (.num (@Int.cast ℚ _ i))
  | .float64, f =>
    match f with
    | .finite q => some (.num q)
    | _ => none
  | .bytes, b =>
    match b with
    | none => some .null
    | some bs => some (.str ⟨b64Encode bs⟩)
  | .slice t, xs =>
    match xs with
    | none => some .null
    | some l => (l.mapM (fun x => t.marshal x)).map .arr
  | .struct _ fs, v => (fs.marshal v).map .obj
/-- The members written for the fields of a struct, in declaration order: a
field tagged omitempty is left out when its value is empty. -/
def Fields.marshal : (fs : Fields) → fs.Val → Option (List (String × JSON))
  | .nil, _ => some []
  | .cons _ key omitempty t rest, v =>
    if omitempty && isEmptyValue t v.1 then rest.marshal v.2
    else do
      let j ← t.marshal v.1
      let js ← rest.marshal v.2
      some ((key, j) :: js)
end

/-- Is there a field whose key is exactly `k`? -/
def Fields.hasKey : Fields → String → Bool
  | .nil, _ => false
  | .cons _ key _ _ rest, k => key == k || rest.hasKey k

/-- Equality of keys up to the case of the letters A to Z, as the decoder
compares a key with the key of a field when no field has the key exactly. -/
def equalFold (a b : String) : Bool :=
  a.data.map Char.toLower == b.data.map Char.toLower

mutual
/-- Decoding a JSON value into a Go value that holds `old` (`json.Unmarshal`);
`none` is a decoding error.  A null leaves a string, number, bool or struct
as it is and makes a slice nil; a string receives the UTF-8 bytes of the
text; an array makes a slice that is not nil and its elements are decoded into
fresh zero values; the members of an object are decoded one after the other
into the fields they name. -/
def GoType.unmarshal : (T : GoType) → JSON → T.Val → Option T.Val
  | .string, j, old =>
    match j with
    | .str s => some (utf8Encode s.data)
    | .null => some old
    | _ => none
  | .bool, j, old =>
    match j with
    | .bool b => some b
    | .null => some old
    | _ => none
  | .int, j, old =>
    match j with
    | .num q => if q.den = 1 then some q.num else none
    | .null => some old
    | _ => none
  | .float64, j, old =>
    match j with
    | .num q => some (Float64.finite q)
    | .null => some old
    | _ => none
  | .bytes, j, _ =>
    match j with
    | .str s => (b64Decode s.data).map some
    | .null => some none
    | _ => none
  | .slice t, j, _ =>
    match j with
    | .arr items => (items.mapM (fun i => t.unmarshal i t.zero)).map some
    | .null => some none
    | _ => none
  | .struct _ fs, j, old =>
    match j with
    | .obj members =>
      members.foldlM
        (fun acc m => if fs.hasKey m.1 then fs.setField (· == ·) m.1 m.2 acc
          else fs.setField equalFold m.1 m.2 acc) old
    | .null => some old
    | _ => none
/-- Decoding a member into the first field whose key matches `k` under `eq`;
a member that matches no field is skipped. -/
def Fields.setField (eq : String → String → Bool) :
    (fs : Fields) → String → JSON → fs.Val → Option fs.Val
  | .nil, _, _, v => some v
  | .cons _ key _ t rest, k, j, v =>
    if eq key k then (t.unmarshal j v.1).map (fun x => (x, v.2))
    else (rest.setField eq k j v.2).map (fun xs => (v.1, xs))
end

/-- Decoding a JSON value into a fresh value of the type, as the transport
does with the response slot. -/
def GoType.decode (T : GoType) (j : JSON) : Option T.Val := T.unmarshal j T.zero

mutual
/-- No float64 inside the value is a NaN or an infinity. -/
def GoType.finite : (T : GoType) → T.Val → Bool
  | .string, _ => true
  | .bool, _ => true
  | .int, _ => true
  | .float64, f =>
    match f with
    | .finite _ => true
    | _ => false
  | .bytes, _ => true
  | .slice t, xs =>
    match xs with
    | none => true
    | some l => l.all (fun x => t.finite x)
  | .struct _ fs, v => fs.finite v
/-- No float64 inside the fields is a NaN or an infinity. -/
def Fields.finite : (fs : Fields) → fs.Val → Bool
  | .nil, _ => true
  | .cons _ _ _ t rest, v => t.finite v.1 && rest.finite v.2
end

mutual
/-- Every string inside the value is valid UTF-8. -/
def GoType.validText : (T : GoType) → T.Val → Bool
  | .string, s => validUTF8 s
  | .bool, _ => true
  | .int, _ => true
  | .float64, _ => true
  | .bytes, _ => true
  | .slice t, xs =>
    match xs with
    | none => true
    | some l => l.all (fun x => t.validText x)
  | .struct _ fs, v => fs.validText v
/-- Every string inside the fields is valid UTF-8. -/
def Fields.validText : (fs : Fields) → fs.Val → Bool
  | .nil, _ => true
  | .cons _ _ _ t rest, v => t.validText v.1 && rest.validText v.2
end

mutual
/-- No field tagged omitempty inside the value holds a slice that is empty
but not nil. -/
def GoType.omittedAreNil : (T : GoType) → T.Val → Bool
  | .string, _ => true
  | .bool, _ => true
  | .int, _ => true
  | .float64, _ => true
  | .bytes, _ => true
  | .slice t, xs =>
    match xs with
    | none => true
    | some l => l.all (fun x => t.omittedAreNil x)
  | .struct _ fs, v => fs.omittedAreNil v
/-- No field tagged omitempty among the fields, or inside them, holds a slice
that is empty but not nil. -/
def Fields.omittedAreNil : (fs : Fields) → fs.Val → Bool
  | .nil, _ => true
  | .cons _ _ omitempty t rest, v =>
    !(omitempty && isNonNilEmpty t v.1) && t.omittedAreNil v.1 && rest.omittedAreNil v.2
end

/-- The json keys of the fields, in declaration order. -/
def Fields.keys : Fields → List String
  | .nil => []
  | .cons _ key _ _ rest => key :: rest.keys

/-- The tags of the fields: Go name, json key, omitempty. -/
def Fields.tags : Fields → List (String × String × Bool)
  | .nil => []
  | .cons name key omitempty _ rest => (name, key, omitempty) :: rest.tags

/-- The fields of a struct type; another type has none. -/
def GoType.fields : GoType → Fields
  | .struct _ fs => fs
  | _ => .nil

mutual
/-- Within every struct inside the type the json keys are pairwise distinct. -/
def GoType.distinctKeys : GoType → Bool
  | .slice t => t.distinctKeys
  | .struct _ fs => fs.keys.Nodup && fs.distinctKeys
  | _ => true
/-- The same for the types of the fields. -/
def Fields.distinctKeys : Fields → Bool
  | .nil => true
  | .cons _ _ _ t rest => t.distinctKeys && rest.distinctKeys
end


/-- The calls of `Do` that one call of a method makes, in order. -/
def Support.calls (c : Support) (Do : Transport σ) (op : Operation) (req : op.Request.Val)
    (w : σ) : List Call :=
  (c.invoke (recording Do) op req ([], w)).world.1

/-- What `Do` answers to the one call that the method of `op` makes in the world `w`. -/
def Support.answer (c : Support) (Do : Transport σ) (op : Operation) (req : op.Request.Val)
    (w : σ) : DoResult op.Response σ :=
  Do c.client op.name "POST" "/" op.Request req op.Response op.Response.zero w

/-- A transport that fails with `e` and writes nothing into the slot. -/
def failing (e : Error) : Transport σ :=
  fun _ _ _ _ _ _ _ slot w => ⟨slot, some e, w⟩

/-- An attachment of three bytes. -/
def sampleAttachment : Attachment.Val :=
  (some [104, 105, 10], goString "note.txt", ())

/-- A request with four attachments, one more than the service accepts in a set. -/
def fourAttachments : AddAttachmentsToSetRequest.Val :=
  (goString "", some [sampleAttachment, sampleAttachment, sampleAttachment, sampleAttachment], ())

/-- A request for the Trusted Advisor checks without a language. -/
def noLanguage : DescribeTrustedAdvisorChecksRequest.Val :=
  (goString "", ())

/-- A request for a new case without a subject and with an issue type that the
service does not know. -/
def oddCase : CreateCaseRequest.Val :=
  (goString "", goString "", none, goString "help", goString "billing", goString "",
    goString "", goString "", goString "", ())

/-- A request for a new case that names no issue type. -/
def untypedCase : CreateCaseRequest.Val :=
  (goString "", goString "", none, goString "help", goString "", goString "en",
    goString "", goString "", goString "disk full", ())

/-- The keys of the fields whose tag has no omitempty. -/
def GoType.requiredKeys (T : GoType) : List String :=
  (T.fields.tags.filter (fun tag => !tag.2.2)).map (fun tag => tag.2.1)

/-- The name of a struct type. -/
def GoType.structName : GoType → String
  | .struct name _ => name
  | _ => ""

mutual
/-- No float64 occurs in the type. -/
def GoType.noFloat : GoType → Bool
  | .float64 => false
  | .slice t => t.noFloat
  | .struct _ fs => fs.noFloat
  | _ => true
/-- No float64 occurs in the types of the fields. -/
def Fields.noFloat : Fields → Bool
  | .nil => true
  | .cons _ _ _ t rest => t.noFloat && rest.noFloat
end

/-- A case with two communications, the first with two attachments. -/
def sampleCase : CaseDetails.Val :=
  (goString "case-12345", goString "general",
    some [goString "a@example.com", goString "b@example.com"], goString "12345", goString "en",
    (some [(some [(goString "att-1", goString "one.txt", ()),
          (goString "att-2", goString "two.txt", ())],
        goString "first", goString "case-12345", goString "me", goString "t1", ()),
      (none, goString "second", goString "case-12345", goString "you", goString "t2", ())],
      goString "", ()),
    goString "ec2", goString "low", goString "opened", goString "disque plein à 100 %", goString "me",
    goString "t0", ())

/-- A page of two cases, the second one empty, with a token for the next page. -/
def sampleCases : DescribeCasesResponse.Val :=
  (some [sampleCase, CaseDetails.zero], goString "next", ())

/-- A cost summary whose first number is the positive infinity. -/
def infiniteSavings : TrustedAdvisorCostOptimizingSummary.Val :=
  (Float64.inf false, Float64.finite 0, ())

/-- A request to resolve the case whose ID is the one byte 0xFF, which is not
valid UTF-8 (the Go string "\xff"). -/
def invalidCaseID : ResolveCaseRequest.Val :=
  ([255], ())

/-- The request that comes back for `invalidCaseID`: the ID is the encoding of
U+FFFD, the bytes 0xEF 0xBF 0xBD. -/
def replacedCaseID : ResolveCaseRequest.Val :=
  ([239, 191, 189], ())

/-- A communication whose list of addresses to copy is empty but not nil
(`CcEmailAddresses: []string{}`). -/
def emptyCopies : AddCommunicationToCaseRequest.Val :=
  (goString "", goString "case-1", some [], goString "hello", ())

/-- The request that comes back for `emptyCopies`: the list of addresses is nil. -/
def nilCopies : AddCommunicationToCaseRequest.Val :=
  (goString "", goString "case-1", none, goString "hello", ())


/-- Decoding one member of an object into the fields of a struct: the field
whose key is exactly the member's key, or else the first field whose key is
that key up to case. -/
def Fields.decodeMember (fs : Fields) (acc : fs.Val) (m : String × JSON) : Option fs.Val :=
  if fs.hasKey m.1 then fs.setField (· == ·) m.1 m.2 acc
  else fs.setField equalFold m.1 m.2 acc

/-- A value of the type is written and read back from a fresh value as itself. -/
def GoType.RoundTrips (T : GoType) (v : T.Val) : Prop :=
  ∃ j, T.marshal v = some j ∧ T.unmarshal j T.zero = some v

/-- The fields are written, under their own keys only, and read back. -/
def Fields.RoundTrips (fs : Fields) (v : fs.Val) : Prop :=
  ∃ ms, fs.marshal v = some ms ∧ (∀ m ∈ ms, m.1 ∈ fs.keys) ∧
    ms.foldlM fs.decodeMember fs.zero = some v

/-- A key with the letters A to Z in lower case, the form in which `equalFold`
compares two keys. -/
def foldCase (s : String) : List Char := s.data.map Char.toLower

/-- The keys of the fields that a member named `k` can be decoded into: those
equal to `k` up to case. -/
def Fields.candidates (fs : Fields) (k : String) : List String :=
  fs.keys.filter (fun key => equalFold key k)

/-! # Theorems -/

/-! ## Base64 -/

theorem b64Index_b64Char (n : Nat) (h : n < 64) : b64Index (b64Char n) = some n := by
  interval_cases n <;> decide

theorem b64Char_ne_pad (n : Nat) (h : n < 64) : b64Char n ≠ '=' := by
  interval_cases n <;> decide

theorem byteOf_eq (n : Nat) (a : Fin 256) (h : n = a.val) : byteOf n = a := by
  apply Fin.ext
  simp [byteOf, h, Nat.mod_eq_of_lt a.isLt]

theorem b64Decode_b64Encode : ∀ bs : List (Fin 256), b64Decode (b64Encode bs) = some bs
  | [] => by simp [b64Encode, b64Decode]
  | [a] => by
    have ha := a.isLt
    have h1 : a.val / 4 < 64 := by omega
    have h2 : a.val % 4 * 16 < 64 := by omega
    simp [b64Encode, b64Decode, b64Index_b64Char _ h1, b64Index_b64Char _ h2]
    exact byteOf_eq _ _ (by omega)
  | [a, b] => by
    have ha := a.isLt
    have hb := b.isLt
    have h1 : a.val / 4 < 64 := by omega
    have h2 : a.val % 4 * 16 + b.val / 16 < 64 := by omega
    have h3 : b.val % 16 * 4 < 64 := by omega
    simp [b64Encode, b64Decode, b64Index_b64Char _ h1, b64Index_b64Char _ h2,
      b64Index_b64Char _ h3, b64Char_ne_pad _ h3]
    exact ⟨byteOf_eq _ _ (by omega), byteOf_eq _ _ (by omega)⟩
  | a :: b :: c :: rest => by
    have ha := a.isLt
    have hb := b.isLt
    have hc := c.isLt
    have h1 : a.val / 4 < 64 := by omega
    have h2 : a.val % 4 * 16 + b.val / 16 < 64 := by omega
    have h3 : b.val % 16 * 4 + c.val / 64 < 64 := by omega
    have h4 : c.val % 64 < 64 := by omega
    simp [b64Encode, b64Decode, b64Index_b64Char _ h1, b64Index_b64Char _ h2,
      b64Index_b64Char _ h3, b64Index_b64Char _ h4, b64Char_ne_pad _ h4,
      b64Decode_b64Encode rest]
    exact ⟨byteOf_eq _ _ (by omega), byteOf_eq _ _ (by omega), byteOf_eq _ _ (by omega)⟩

/-! ## UTF-8 -/

theorem toNat_ofNat_of_valid (n : Nat) (h : n.isValidChar) : (Char.ofNat n).toNat = n := by
  unfold Char.ofNat
  rw [dif_pos h]
  rfl

theorem isCont_iff (b : Fin 256) : isCont b = true ↔ 0x80 ≤ b.val ∧ b.val ≤ 0xBF := by
  simp [isCont]

theorem encodeRune_one (n : Nat) (b0 : Fin 256) (h : n = b0.val) (h1 : n < 0x80) :
    encodeRune (Char.ofNat n) = [b0] := by
  have hv : n.isValidChar := Or.inl (by omega)
  simp only [encodeRune, toNat_ofNat_of_valid n hv, h1, if_true]
  rw [byteOf_eq n b0 h]

theorem encodeRune_two (n : Nat) (b0 b1 : Fin 256) (h1 : 0x80 ≤ n) (h2 : n < 0x800)
    (e0 : 0xC0 + n / 64 = b0.val) (e1 : 0x80 + n % 64 = b1.val) :
    encodeRune (Char.ofNat n) = [b0, b1] := by
  have hv : n.isValidChar := Or.inl (by omega)
  have n1 : ¬ n < 0x80 := by omega
  simp only [encodeRune, toNat_ofNat_of_valid n hv, n1, h2, if_true, if_false]
  rw [byteOf_eq _ b0 e0, byteOf_eq _ b1 e1]

theorem encodeRune_three (n : Nat) (b0 b1 b2 : Fin 256) (h1 : 0x800 ≤ n) (h2 : n < 0x10000)
    (hs : n < 0xD800 ∨ 0xDFFF < n)
    (e0 : 0xE0 + n / 4096 = b0.val) (e1 : 0x80 + n / 64 % 64 = b1.val)
    (e2 : 0x80 + n % 64 = b2.val) :
    encodeRune (Char.ofNat n) = [b0, b1, b2] := by
  have hv : n.isValidChar := by
    rcases hs with hs | hs
    · exact Or.inl hs
    · exact Or.inr ⟨hs, by omega⟩
  have n1 : ¬ n < 0x80 := by omega
  have n2 : ¬ n < 0x800 := by omega
  simp only [encodeRune, toNat_ofNat_of_valid n hv, n1, n2, h2, if_true, if_false]
  rw [byteOf_eq _ b0 e0, byteOf_eq _ b1 e1, byteOf_eq _ b2 e2]

theorem encodeRune_four (n : Nat) (b0 b1 b2 b3 : Fin 256) (h1 : 0x10000 ≤ n)
    (h2 : n < 0x110000)
    (e0 : 0xF0 + n / 262144 = b0.val) (e1 : 0x80 + n / 4096 % 64 = b1.val)
    (e2 : 0x80 + n / 64 % 64 = b2.val) (e3 : 0x80 + n % 64 = b3.val) :
    encodeRune (Char.ofNat n) = [b0, b1, b2, b3] := by
  have hv : n.isValidChar := Or.inr ⟨by omega, h2⟩
  have n1 : ¬ n < 0x80 := by omega
  have n2 : ¬ n < 0x800 := by omega
  have n3 : ¬ n < 0x10000 := by omega
  simp only [encodeRune, toNat_ofNat_of_valid n hv, n1, n2, n3, if_false]
  rw [byteOf_eq _ b0 e0, byteOf_eq _ b1 e1, byteOf_eq _ b2 e2, byteOf_eq _ b3 e3]

theorem decodeRune_spec (bs : List (Fin 256)) (cp size : Nat)
    (h : decodeRune bs = some (cp, size)) :
    1 ≤ size ∧ encodeRune (Char.ofNat cp) = bs.take size := by
  cases bs with
  | nil => simp [decodeRune] at h
  | cons b0 rest =>
    have h0 := b0.isLt
    simp only [decodeRune] at h
    split at h
    · rename_i hlt
      simp only [Option.some.injEq, Prod.mk.injEq] at h
      obtain ⟨rfl, rfl⟩ := h
      exact ⟨le_refl _, by simpa using encodeRune_one _ b0 rfl hlt⟩
    · split at h
      · rename_i hr
        cases rest with
        | nil => simp at h
        | cons b1 r1 =>
          simp only at h
          split at h
          · rename_i hc
            rw [isCont_iff] at hc
            simp only [Option.some.injEq, Prod.mk.injEq] at h
            obtain ⟨rfl, rfl⟩ := h
            refine ⟨by omega, ?_⟩
            have := encodeRune_two ((b0.val - 0xC0) * 64 + (b1.val - 0x80)) b0 b1
              (by omega) (by omega) (by omega) (by omega)
            simpa using this
          · simp at h
      · split at h
        · rename_i hr
          cases rest with
          | nil => simp at h
          | cons b1 r1 =>
            cases r1 with
            | nil => simp at h
            | cons b2 r2 =>
              have h1 := b1.isLt
              simp only at h
              split at h
              · rename_i hc
                obtain ⟨hlo, hhi, hc2⟩ := hc
                rw [isCont_iff] at hc2
                simp only [Option.some.injEq, Prod.mk.injEq] at h
                obtain ⟨rfl, rfl⟩ := h
                refine ⟨by omega, ?_⟩
                simp only [secondLow, secondHigh] at hlo hhi
                have := encodeRune_three
                  ((b0.val - 0xE0) * 4096 + (b1.val - 0x80) * 64 + (b2.val - 0x80)) b0 b1 b2
                  (by split_ifs at hlo hhi <;> omega) (by split_ifs at hlo hhi <;> omega)
                  (by split_ifs at hlo hhi <;> omega) (by split_ifs at hlo hhi <;> omega)
                  (by split_ifs at hlo hhi <;> omega) (by split_ifs at hlo hhi <;> omega)
                simpa using this
              · simp at h
        · split at h
          · rename_i hr
            cases rest with
            | nil => simp at h
            | cons b1 r1 =>
              cases r1 with
              | nil => simp at h
              | cons b2 r2 =>
                cases r2 with
                | nil => simp at h
                | cons b3 r3 =>
                  have h1 := b1.isLt
                  simp only at h
                  split at h
                  · rename_i hc
                    obtain ⟨hlo, hhi, hc2, hc3⟩ := hc
                    rw [isCont_iff] at hc2 hc3
                    simp only [Option.some.injEq, Prod.mk.injEq] at h
                    obtain ⟨rfl, rfl⟩ := h
                    refine ⟨by omega, ?_⟩
                    simp only [secondLow, secondHigh] at hlo hhi
                    have := encodeRune_four
                      ((b0.val - 0xF0) * 262144 + (b1.val - 0x80) * 4096 + (b2.val - 0x80) * 64 +
                        (b3.val - 0x80)) b0 b1 b2 b3
                      (by split_ifs at hlo hhi <;> omega) (by split_ifs at hlo hhi <;> omega)
                      (by split_ifs at hlo hhi <;> omega) (by split_ifs at hlo hhi <;> omega)
                      (by split_ifs at hlo hhi <;> omega) (by split_ifs at hlo hhi <;> omega)
                    simpa using this
                  · simp at h
          · simp at h

theorem utf8Encode_utf8DecodeFuel : ∀ (fuel : Nat) (bs : List (Fin 256)),
    bs.length ≤ fuel → validUTF8Fuel fuel bs = true →
      utf8Encode (utf8DecodeFuel fuel bs) = bs
  | 0, bs, hl, _ => by
    have : bs = [] := List.eq_nil_of_length_eq_zero (by omega)
    subst this
    rfl
  | fuel + 1, [], _, _ => rfl
  | fuel + 1, b :: rest, hl, hv => by
    simp only [validUTF8Fuel] at hv
    simp only [utf8DecodeFuel]
    cases hd : decodeRune (b :: rest) with
    | none => simp [hd] at hv
    | some r =>
      obtain ⟨cp, size⟩ := r
      simp only [hd] at hv
      obtain ⟨hs, he⟩ := decodeRune_spec _ _ _ hd
      have hlen : ((b :: rest).drop size).length ≤ fuel := by
        simp only [List.length_drop, List.length_cons] at hl ⊢
        omega
      simp only [utf8Encode, he, utf8Encode_utf8DecodeFuel fuel _ hlen hv,
        List.take_append_drop]

theorem utf8Encode_utf8Decode (bs : List (Fin 256)) (h : validUTF8 bs = true) :
    utf8Encode (utf8Decode bs) = bs :=
  utf8Encode_utf8DecodeFuel bs.length bs (le_refl _) h

/-! ## Serialization lemmas -/

theorem GoType.unmarshal_obj (name : String) (fs : Fields) (members : List (String × JSON))
    (old : fs.Val) :
    (GoType.struct name fs).unmarshal (.obj members) old = members.foldlM fs.decodeMember old := by
  rfl

theorem Fields.hasKey_iff : (fs : Fields) → (k : String) → (fs.hasKey k = true ↔ k ∈ fs.keys)
  | .nil, k => by simp [Fields.hasKey, Fields.keys]
  | .cons _ key _ _ rest, k => by
    simp only [Fields.hasKey, Fields.keys, Bool.or_eq_true, beq_iff_eq, List.mem_cons,
      Fields.hasKey_iff rest k]
    exact or_congr_left eq_comm

theorem sliceLen_eq_zero {α : Type} (xs : Option (List α)) (h : sliceLen xs = 0)
    (hne : xs ≠ some []) : xs = none := by
  cases xs with
  | none => rfl
  | some l =>
    have hl : l = [] := List.eq_nil_of_length_eq_zero h
    subst hl
    exact absurd rfl hne

theorem isEmptyValue_zero : (T : GoType) → (v : T.Val) → isEmptyValue T v = true →
    isNonNilEmpty T v = false → v = T.zero
  | .string, s, h, _ => by
    have hs : List.length s = 0 := by simpa [isEmptyValue] using h
    exact List.eq_nil_of_length_eq_zero hs
  | .bool, b, h, _ => by
    have hb : b = false := by simpa [isEmptyValue] using h
    exact hb
  | .int, i, h, _ => by
    have hi : i = (0 : Int) := by simpa [isEmptyValue] using h
    exact hi
  | .float64, f, h, _ => by
    have hf : f = Float64.finite 0 := by simpa [isEmptyValue] using h
    exact hf
  | .bytes, b, h, hn => by
    have hb : sliceLen b = 0 := by simpa [isEmptyValue] using h
    have hne : b ≠ some [] := by simpa [isNonNilEmpty] using hn
    exact sliceLen_eq_zero b hb hne
  | .slice t, xs, h, hn => by
    have hx : sliceLen xs = 0 := by simpa [isEmptyValue] using h
    have hne : xs ≠ some [] := by
      intro e
      rw [e] at hn
      simp [isNonNilEmpty] at hn
    exact sliceLen_eq_zero xs hx hne
  | .struct _ _, _, h, _ => by
    simp [isEmptyValue] at h

theorem mapM_roundtrip {α β : Type} (f : α → Option β) (g : β → Option α) :
    ∀ xs : List α, (∀ x ∈ xs, ∃ j, f x = some j ∧ g j = some x) →
      ∃ js, xs.mapM f = some js ∧ js.mapM g = some xs
  | [], _ => ⟨[], rfl, rfl⟩
  | x :: xs, h => by
    obtain ⟨j, hj, hg⟩ := h x (by simp)
    obtain ⟨js, hjs, hgs⟩ := mapM_roundtrip f g xs (fun y hy => h y (by simp [hy]))
    refine ⟨j :: js, ?_, ?_⟩
    · simp only [List.mapM_cons, hj, hjs]
      rfl
    · simp only [List.mapM_cons, hg, hgs]
      rfl

theorem mapM_isSome {α β : Type} (f : α → Option β) :
    ∀ xs : List α, (∀ x ∈ xs, ∃ j, f x = some j) → ∃ js, xs.mapM f = some js
  | [], _ => ⟨[], rfl⟩
  | x :: xs, h => by
    obtain ⟨j, hj⟩ := h x (by simp)
    obtain ⟨js, hjs⟩ := mapM_isSome f xs (fun y hy => h y (by simp [hy]))
    refine ⟨j :: js, ?_⟩
    simp only [List.mapM_cons, hj, hjs]
    rfl

theorem GoType.roundTrips_string (s : List (Fin 256)) (h : validUTF8 s = true) :
    GoType.string.RoundTrips s := by
  refine ⟨.str ⟨utf8Decode s⟩, rfl, ?_⟩
  simp only [GoType.unmarshal, utf8Encode_utf8Decode s h]

theorem GoType.roundTrips_bytes (b : Option (List (Fin 256))) : GoType.bytes.RoundTrips b := by
  cases b with
  | none => exact ⟨.null, rfl, rfl⟩
  | some bs =>
    refine ⟨.str ⟨b64Encode bs⟩, rfl, ?_⟩
    simp only [GoType.unmarshal, b64Decode_b64Encode, Option.map_some']

theorem GoType.roundTrips_slice (t : GoType) (xs : Option (List t.Val))
    (ih : ∀ l, xs = some l → ∀ x ∈ l, t.RoundTrips x) : (GoType.slice t).RoundTrips xs := by
  cases xs with
  | none => exact ⟨.null, rfl, rfl⟩
  | some l =>
    obtain ⟨js, hjs, hgs⟩ := mapM_roundtrip (fun x => t.marshal x)
      (fun i => t.unmarshal i t.zero) l (ih l rfl)
    refine ⟨.arr js, ?_, ?_⟩
    · simp only [GoType.marshal, hjs, Option.map_some']
    · simp only [GoType.unmarshal, hgs, Option.map_some']

theorem Fields.foldlM_decodeMember_cons (name key : String) (omitempty : Bool) (t : GoType)
    (rest : Fields) (hk : key ∉ rest.keys) :
    ∀ (ms : List (String × JSON)), (∀ m ∈ ms, m.1 ∈ rest.keys) →
      ∀ (x : t.Val) (ys : rest.Val),
        ms.foldlM (Fields.cons name key omitempty t rest).decodeMember (x, ys) =
          (ms.foldlM rest.decodeMember ys).map (fun zs => (x, zs))
  | [], _, x, ys => by
    simp only [List.foldlM_nil]
    rfl
  | m :: ms, h, x, ys => by
    have hm : m.1 ∈ rest.keys := h m (by simp)
    have hne : (key == m.1) = false := by
      simp only [beq_eq_false_iff_ne, ne_eq]
      intro e
      exact hk (e ▸ hm)
    have hrest : rest.hasKey m.1 = true := (Fields.hasKey_iff rest m.1).2 hm
    have step : (Fields.cons name key omitempty t rest).decodeMember (x, ys) m =
        (rest.decodeMember ys m).map (fun zs => (x, zs)) := by
      simp [Fields.decodeMember, Fields.hasKey, Fields.setField, hne, hrest]
    simp only [List.foldlM_cons, step]
    cases hr : rest.decodeMember ys m with
    | none => rfl
    | some zs =>
      exact Fields.foldlM_decodeMember_cons name key omitempty t rest hk ms
        (fun m2 h2 => h m2 (by simp [h2])) x zs

theorem Fields.roundTrips_cons (name key : String) (omitempty : Bool) (t : GoType)
    (rest : Fields) (hk : key ∉ rest.keys) (x : t.Val) (xs : rest.Val)
    (hnil : (omitempty && isNonNilEmpty t x) = false)
    (ihx : t.RoundTrips x) (ihxs : rest.RoundTrips xs) :
    (Fields.cons name key omitempty t rest).RoundTrips (x, xs) := by
  obtain ⟨ms, hms, hkeys, hdec⟩ := ihxs
  have hskip := Fields.foldlM_decodeMember_cons name key omitempty t rest hk ms hkeys
  by_cases ho : (omitempty && isEmptyValue t x) = true
  · have ho2 := Bool.and_eq_true_iff.1 ho
    have hx : x = t.zero := isEmptyValue_zero t x ho2.2 (by
      rw [ho2.1] at hnil
      simpa using hnil)
    refine ⟨ms, ?_, ?_, ?_⟩
    · simp only [Fields.marshal, ho, if_true, hms]
    · intro m hm
      simp [Fields.keys, hkeys m hm]
    · show ms.foldlM (Fields.cons name key omitempty t rest).decodeMember (t.zero, rest.zero) = _
      rw [hskip, hdec, hx]
      rfl
  · obtain ⟨j, hj, hdj⟩ := ihx
    refine ⟨(key, j) :: ms, ?_, ?_, ?_⟩
    · simp only [Fields.marshal, ho, if_false, hj, hms, Bool.false_eq_true]
      rfl
    · intro m hm
      rcases List.mem_cons.1 hm with h | h
      · simp [Fields.keys, h]
      · simp [Fields.keys, hkeys m h]
    · show ((key, j) :: ms).foldlM (Fields.cons name key omitempty t rest).decodeMember
        (t.zero, rest.zero) = _
      have hfirst : (Fields.cons name key omitempty t rest).decodeMember (t.zero, rest.zero)
          (key, j) = some (x, rest.zero) := by
        simp [Fields.decodeMember, Fields.hasKey, Fields.setField, hdj]
      simp only [List.foldlM_cons, hfirst]
      show ms.foldlM (Fields.cons name key omitempty t rest).decodeMember (x, rest.zero) = _
      rw [hskip, hdec]
      rfl

mutual
theorem GoType.roundtrip : (T : GoType) → T.distinctKeys = true → (v : T.Val) →
    T.finite v = true → T.validText v = true → T.omittedAreNil v = true → T.RoundTrips v
  | .string, _, s, _, hv, _ => GoType.roundTrips_string s hv
  | .bool, _, b, _, _, _ => ⟨.bool b, rfl, rfl⟩
  | .int, _, i, _, _, _ => ⟨.num (@Int.cast ℚ _ i), rfl, by
      simp only [GoType.unmarshal, Rat.intCast_den, Rat.intCast_num, if_true]⟩
  | .float64, _, f, hf, _, _ => by
    cases f with
    | finite q => exact ⟨.num q, rfl, rfl⟩
    | nan => simp [GoType.finite] at hf
    | inf neg => simp [GoType.finite] at hf
  | .bytes, _, b, _, _, _ => GoType.roundTrips_bytes b
  | .slice t, hk, xs, hf, hv, hn => by
    have hk2 : t.distinctKeys = true := by simpa [GoType.distinctKeys] using hk
    refine GoType.roundTrips_slice t xs ?_
    intro l hl x hx
    subst hl
    have hf2 : (List.all l fun x => t.finite x) = true := hf
    have hv2 : (List.all l fun x => t.validText x) = true := hv
    have hn2 : (List.all l fun x => t.omittedAreNil x) = true := hn
    rw [List.all_eq_true] at hf2 hv2 hn2
    exact GoType.roundtrip t hk2 x (hf2 x hx) (hv2 x hx) (hn2 x hx)
  | .struct name fs, hk, v, hf, hv, hn => by
    have hk2 : fs.keys.Nodup ∧ fs.distinctKeys = true := by
      simpa [GoType.distinctKeys] using hk
    obtain ⟨ms, hms, _, hdec⟩ := Fields.fields_roundtrip fs hk2.1 hk2.2 v hf hv hn
    refine ⟨.obj ms, ?_, ?_⟩
    · simp only [GoType.marshal, hms, Option.map_some']
    · rw [GoType.unmarshal_obj]
      exact hdec
theorem Fields.fields_roundtrip : (fs : Fields) → fs.keys.Nodup → fs.distinctKeys = true →
    (v : fs.Val) → fs.finite v = true → fs.validText v = true → fs.omittedAreNil v = true →
    fs.RoundTrips v
  | .nil, _, _, _, _, _, _ => ⟨[], rfl, by simp, rfl⟩
  | .cons name key omitempty t rest, hn, hk, v, hf, hv, ho => by
    have hn2 : key ∉ rest.keys ∧ rest.keys.Nodup := by simpa [Fields.keys] using hn
    have hk2 : t.distinctKeys = true ∧ rest.distinctKeys = true := by
      simpa [Fields.distinctKeys] using hk
    have hf2 : t.finite v.1 = true ∧ rest.finite v.2 = true := by
      simpa [Fields.finite] using hf
    have hv2 : t.validText v.1 = true ∧ rest.validText v.2 = true := by
      simpa [Fields.validText] using hv
    have ho2 : ((omitempty && isNonNilEmpty t v.1) = false ∧ t.omittedAreNil v.1 = true) ∧
        rest.omittedAreNil v.2 = true := by
      simpa only [Fields.omittedAreNil, Bool.and_eq_true, Bool.not_eq_true'] using ho
    exact Fields.roundTrips_cons name key omitempty t rest hn2.1 v.1 v.2 ho2.1.1
      (GoType.roundtrip t hk2.1 v.1 hf2.1 hv2.1 ho2.1.2)
      (Fields.fields_roundtrip rest hn2.2 hk2.2 v.2 hf2.2 hv2.2 ho2.2)
end

mutual
theorem GoType.marshal_of_finite : (T : GoType) → (v : T.Val) → T.finite v = true →
    ∃ j, T.marshal v = some j
  | .string, s, _ => ⟨_, rfl⟩
  | .bool, b, _ => ⟨_, rfl⟩
  | .int, i, _ => ⟨_, rfl⟩
  | .float64, f, hf => by
    cases f with
    | finite q => exact ⟨.num q, rfl⟩
    | nan => simp [GoType.finite] at hf
    | inf neg => simp [GoType.finite] at hf
  | .bytes, b, _ => by
    cases b with
    | none => exact ⟨_, rfl⟩
    | some bs => exact ⟨_, rfl⟩
  | .slice t, xs, hf => by
    cases xs with
    | none => exact ⟨_, rfl⟩
    | some l =>
      have hf2 : (List.all l fun x => t.finite x) = true := hf
      rw [List.all_eq_true] at hf2
      obtain ⟨js, hjs⟩ := mapM_isSome (fun x => t.marshal x) l
        (fun x hx => GoType.marshal_of_finite t x (hf2 x hx))
      exact ⟨.arr js, by simp only [GoType.marshal, hjs, Option.map_some']⟩
  | .struct _ fs, v, hf => by
    obtain ⟨ms, hms⟩ := Fields.fields_marshal_of_finite fs v hf
    exact ⟨.obj ms, by simp only [GoType.marshal, hms, Option.map_some']⟩
theorem Fields.fields_marshal_of_finite : (fs : Fields) → (v : fs.Val) → fs.finite v = true →
    ∃ ms, fs.marshal v = some ms
  | .nil, _, _ => ⟨[], rfl⟩
  | .cons _ key omitempty t rest, v, hf => by
    have hf2 : t.finite v.1 = true ∧ rest.finite v.2 = true := by
      simpa [Fields.finite] using hf
    obtain ⟨j, hj⟩ := GoType.marshal_of_finite t v.1 hf2.1
    obtain ⟨ms, hms⟩ := Fields.fields_marshal_of_finite rest v.2 hf2.2
    by_cases ho : (omitempty && isEmptyValue t v.1) = true
    · exact ⟨ms, by simp only [Fields.marshal, ho, if_true, hms]⟩
    · refine ⟨(key, j) :: ms, ?_⟩
      simp only [Fields.marshal, ho, if_false, hj, hms, Bool.false_eq_true]
      rfl
end

/-! ## The methods and the transport -/

theorem Support.invoke_eq (c : Support) (Do : Transport σ) (op : Operation)
    (req : op.Request.Val) (w : σ) :
    c.invoke Do op req w =
      ⟨some (c.answer Do op req w).resp, (c.answer Do op req w).err, c,
        (c.answer Do op req w).world⟩ := by
  cases op <;> rfl

theorem Support.invoke_recording (c : Support) (Do : Transport σ) (op : Operation)
    (req : op.Request.Val) (journal : List Call) (w : σ) :
    c.invoke (recording Do) op req (journal, w) =
      ⟨(c.invoke Do op req w).resp, (c.invoke Do op req w).err, c,
        (journal ++ [⟨c.client, op.name, "POST", "/", op.Request, req, op.Response,
          op.Response.zero⟩], (c.invoke Do op req w).world)⟩ := by
  cases op <;> rfl

theorem Support.calls_eq (c : Support) (Do : Transport σ) (op : Operation)
    (req : op.Request.Val) (w : σ) :
    c.calls Do op req w =
      [⟨c.client, op.name, "POST", "/", op.Request, req, op.Response, op.Response.zero⟩] := by
  simp only [Support.calls, Support.invoke_recording, List.nil_append]

theorem runCalls_self (Do : Transport σ) (c : Support) :
    ∀ (calls : List Invocation) (w : σ), (runCalls Do calls c w).2.1 = c
  | [], _ => rfl
  | i :: rest, w => by
    simp only [runCalls, Support.invoke_eq]
    exact runCalls_self Do c rest _

theorem runCalls_journal (Do : Transport σ) (c : Support) :
    ∀ (calls : List Invocation) (journal : List Call) (w : σ),
      (runCalls (recording Do) calls c (journal, w)).2.2.1.map Call.client =
        journal.map Call.client ++ List.replicate calls.length c.client
  | [], journal, w => by simp [runCalls]
  | i :: rest, journal, w => by
    simp only [runCalls, Support.invoke_recording]
    rw [runCalls_journal Do c rest]
    simp [List.replicate_succ]

theorem runCalls_append (Do : Transport σ) (c : Support) (i : Invocation) :
    ∀ (pre : List Invocation) (w : σ),
      (runCalls Do (pre ++ [i]) c w).1 =
        (runCalls Do pre c w).1 ++
          [⟨i.op, some (c.answer Do i.op i.req (runCalls Do pre c w).2.2).resp,
            (c.answer Do i.op i.req (runCalls Do pre c w).2.2).err⟩]
  | [], w => by
    simp only [List.nil_append, runCalls, Support.invoke_eq]
  | j :: pre, w => by
    have ih := runCalls_append Do c i pre (c.answer Do j.op j.req w).world
    simp only [List.cons_append, runCalls, Support.invoke_eq]
    exact congrArg (List.cons _) ih

theorem Sprintf_endpoint (region : String) :
    Sprintf "https://support.%s.amazonaws.com" region =
      "https://support." ++ region ++ ".amazonaws.com" := by
  rfl

theorem endpoint_injective (r1 r2 : String)
    (h : "https://support." ++ r1 ++ ".amazonaws.com" = "https://support." ++ r2 ++ ".amazonaws.com") :
    r1 = r2 := by
  have hd := congrArg String.data h
  simp only [String.data_append] at hd
  have h2 := List.append_cancel_right hd
  have h3 := List.append_cancel_left h2
  exact String.ext h3


/-! ## The operation table -/

/-- C1: the action that each of the fourteen methods passes to Do is the name
of the method; the names are the fourteen of the list, no name is shared by
two methods and none is missing. -/
theorem operation_actions_are_method_names :
    (∀ (σ : Type) (Do : Transport σ) (c : Support) (op : Operation) (req : op.Request.Val)
        (w : σ), (c.calls Do op req w).map Call.action = [op.name]) ∧
    Operation.all.map Operation.name =
      ["AddAttachmentsToSet", "AddCommunicationToCase", "CreateCase", "DescribeAttachment",
        "DescribeCases", "DescribeCommunications", "DescribeServices", "DescribeSeverityLevels",
        "DescribeTrustedAdvisorCheckRefreshStatuses", "DescribeTrustedAdvisorCheckResult",
        "DescribeTrustedAdvisorCheckSummaries", "DescribeTrustedAdvisorChecks",
        "RefreshTrustedAdvisorCheck", "ResolveCase"] ∧
    (∀ op : Operation, op ∈ Operation.all) ∧
    Operation.all.length = 14 ∧
    (Operation.all.map Operation.name).Nodup := by
  refine ⟨?_, by decide, ?_, by decide, by decide⟩
  · intro σ Do c op req w
    rw [Support.calls_eq]
    rfl
  · intro op
    cases op <;> decide

/-- C2: a method calls Do exactly once, whatever Do does, and the error it
returns is the error of that call: there is one exactly when Do gave one, and
the world is left as that one call left it. -/
theorem error_is_the_error_of_Do (σ : Type) (Do : Transport σ) (c : Support) (op : Operation)
    (req : op.Request.Val) (w : σ) :
    (c.calls Do op req w).length = 1 ∧
    (c.invoke Do op req w).err = (c.answer Do op req w).err ∧
    (c.invoke Do op req w).err.isSome = (c.answer Do op req w).err.isSome ∧
    (c.invoke Do op req w).world = (c.answer Do op req w).world ∧
    (c.invoke (recording Do) op req ([], w)).err = (c.invoke Do op req w).err := by
  refine ⟨?_, ?_, ?_, ?_, ?_⟩
  · rw [Support.calls_eq]
    rfl
  · rw [Support.invoke_eq]
  · rw [Support.invoke_eq]
  · rw [Support.invoke_eq]
  · rw [Support.invoke_recording]

/-- C3: the one call of Do receives the request of the caller as it is, for
every request; so do a set of four attachments, a request for checks without a
language, and a new case without a subject, with an unknown issue type or with
none (the empty issue type stays empty). -/
theorem request_is_handed_over_unchanged :
    (∀ (σ : Type) (Do : Transport σ) (c : Support) (op : Operation) (req : op.Request.Val)
        (w : σ), c.calls Do op req w =
          [⟨c.client, op.name, "POST", "/", op.Request, req, op.Response, op.Response.zero⟩]) ∧
    (∀ (σ : Type) (Do : Transport σ) (c : Support) (w : σ),
      (c.AddAttachmentsToSet (recording Do) fourAttachments ([], w)).world.1 =
          [⟨c.client, "AddAttachmentsToSet", "POST", "/", AddAttachmentsToSetRequest,
            fourAttachments, AddAttachmentsToSetResponse, AddAttachmentsToSetResponse.zero⟩] ∧
      (c.DescribeTrustedAdvisorChecks (recording Do) noLanguage ([], w)).world.1 =
          [⟨c.client, "DescribeTrustedAdvisorChecks", "POST", "/",
            DescribeTrustedAdvisorChecksRequest, noLanguage,
            DescribeTrustedAdvisorChecksResponse, DescribeTrustedAdvisorChecksResponse.zero⟩] ∧
      (c.CreateCase (recording Do) oddCase ([], w)).world.1 =
          [⟨c.client, "CreateCase", "POST", "/", CreateCaseRequest, oddCase,
            CreateCaseResponse, CreateCaseResponse.zero⟩] ∧
      (c.CreateCase (recording Do) untypedCase ([], w)).world.1 =
          [⟨c.client, "CreateCase", "POST", "/", CreateCaseRequest, untypedCase,
            CreateCaseResponse, CreateCaseResponse.zero⟩]) ∧
    sliceLen fourAttachments.2.1 = 4 ∧ noLanguage.1 = goString "" ∧
    oddCase.2.2.2.2.2.2.2.2.1 = goString "" ∧ oddCase.2.2.2.2.1 = goString "billing" ∧
    untypedCase.2.2.2.2.1 = goString "" := by
  refine ⟨?_, ?_, by decide, by decide, by decide, by decide, by decide⟩
  · intro σ Do c op req w
    exact Support.calls_eq c Do op req w
  · intro σ Do c w
    exact ⟨rfl, rfl, rfl, rfl⟩

/-- C4: the response a method returns is never nil and holds what Do left in
the slot; the slot given to Do is the zero value of the response type of the
method; when Do fails and writes nothing, the caller gets the error together
with that zero value. -/
theorem response_is_the_slot_of_Do (σ : Type) (Do : Transport σ) (c : Support)
    (op : Operation) (req : op.Request.Val) (w : σ) (e : Error) :
    (c.invoke Do op req w).resp = some (c.answer Do op req w).resp ∧
    (c.invoke Do op req w).resp.isSome = true ∧
    (c.calls Do op req w).map (fun k => (⟨k.Rs, k.slot⟩ : (T : GoType) × T.Val)) =
      [⟨op.Response, op.Response.zero⟩] ∧
    (c.invoke (failing e) op req w).resp = some op.Response.zero ∧
    (c.invoke (failing e) op req w).err = some e := by
  refine ⟨?_, ?_, ?_, ?_, ?_⟩
  · rw [Support.invoke_eq]
  · rw [Support.invoke_eq]
    rfl
  · rw [Support.calls_eq]
    rfl
  · rw [Support.invoke_eq]
    rfl
  · rw [Support.invoke_eq]
    rfl

/-! ## The constructor -/

/-- C8: New sets Key, Secret and Region to its arguments, the endpoint to
https://support.REGION.amazonaws.com, and Prefix, JSONVersion and TargetPrefix
to their constants; it is total, the empty region gives
https://support..amazonaws.com, and different regions give different
endpoints. -/
theorem New_configuration (d : HTTPClient) (key secret region : String)
    (client : Option HTTPClient) :
    (New d key secret region client).client.Key = key ∧
    (New d key secret region client).client.Secret = secret ∧
    (New d key secret region client).client.Region = region ∧
    (New d key secret region client).client.Endpoint =
      "https://support." ++ region ++ ".amazonaws.com" ∧
    (New d key secret region client).client.Prefix = "support" ∧
    (New d key secret region client).client.JSONVersion = "1.1" ∧
    (New d key secret region client).client.TargetPrefix = "AWSSupport_20130415" ∧
    (New d key secret "" client).client.Endpoint = "https://support..amazonaws.com" ∧
    Function.Injective (fun r => (New d key secret r client).client.Endpoint) := by
  refine ⟨rfl, rfl, rfl, rfl, rfl, rfl, rfl, rfl, ?_⟩
  intro r1 r2 h
  exact endpoint_injective r1 r2 h

/-! ## Calls leave no state -/

/-- C9: a call returns its receiver as it got it, so after any sequence of
calls the client is the one the sequence started with and every call of Do in
the sequence saw its configuration (for a client made by New, the one New
built); and the response and error of a call made after any calls are the slot
and the error that Do answers, for this configuration, action and request, in
the world the earlier calls left. -/
theorem calls_leave_no_state (σ : Type) (Do : Transport σ) (c : Support)
    (pre : List Invocation) (i : Invocation) (w : σ) :
    (c.invoke Do i.op i.req w).self = c ∧
    (runCalls Do pre c w).2.1 = c ∧
    (runCalls (recording Do) pre c ([], w)).2.2.1.map Call.client =
      List.replicate pre.length c.client ∧
    (c.invoke Do i.op i.req w).resp = some (c.answer Do i.op i.req w).resp ∧
    (c.invoke Do i.op i.req w).err = (c.answer Do i.op i.req w).err ∧
    (runCalls Do (pre ++ [i]) c w).1 =
      (runCalls Do pre c w).1 ++
        [⟨i.op, some (c.answer Do i.op i.req (runCalls Do pre c w).2.2).resp,
          (c.answer Do i.op i.req (runCalls Do pre c w).2.2).err⟩] := by
  refine ⟨?_, runCalls_self Do c pre w, ?_, ?_, ?_, runCalls_append Do c i pre w⟩
  · rw [Support.invoke_eq]
  · rw [runCalls_journal]
    rfl
  · rw [Support.invoke_eq]
  · rw [Support.invoke_eq]

/-! ## Verb and path -/

/-- C10: every method passes the verb POST and the path / to Do, for every
request; two calls agree in verb and path whatever their operations and
requests are, and they carry the same action exactly when the operation is
the same. -/
theorem verb_and_path_are_fixed (σ : Type) (Do : Transport σ) (c : Support)
    (op1 op2 : Operation) (req1 : op1.Request.Val) (req2 : op2.Request.Val) (w1 w2 : σ) :
    (c.calls Do op1 req1 w1).map (fun k => (k.method, k.path)) = [("POST", "/")] ∧
    (c.calls Do op1 req1 w1).map (fun k => (k.method, k.path)) =
      (c.calls Do op2 req2 w2).map (fun k => (k.method, k.path)) ∧
    ((c.calls Do op1 req1 w1).map Call.action = (c.calls Do op2 req2 w2).map Call.action ↔
      op1 = op2) := by
  rw [Support.calls_eq, Support.calls_eq]
  refine ⟨rfl, rfl, ?_⟩
  simp only [List.map_cons, List.map_nil, List.cons.injEq, and_true]
  constructor
  · intro h
    revert h
    cases op1 <;> cases op2 <;> first | (intro _; rfl) | (intro h; exact absurd h (by decide))
  · intro h
    rw [h]


/-! ## The wire schema -/

mutual
theorem GoType.finite_of_noFloat : (T : GoType) → T.noFloat = true → (v : T.Val) →
    T.finite v = true
  | .string, _, _ => rfl
  | .bool, _, _ => rfl
  | .int, _, _ => rfl
  | .float64, h, _ => by simp [GoType.noFloat] at h
  | .bytes, _, _ => rfl
  | .slice t, h, xs => by
    have h2 : t.noFloat = true := by simpa [GoType.noFloat] using h
    cases xs with
    | none => rfl
    | some l =>
      show (List.all l fun x => t.finite x) = true
      rw [List.all_eq_true]
      intro x _
      exact GoType.finite_of_noFloat t h2 x
  | .struct _ fs, h, v => by
    have h2 : fs.noFloat = true := by simpa [GoType.noFloat] using h
    exact Fields.fields_finite_of_noFloat fs h2 v
theorem Fields.fields_finite_of_noFloat : (fs : Fields) → fs.noFloat = true → (v : fs.Val) →
    fs.finite v = true
  | .nil, _, _ => rfl
  | .cons _ _ _ t rest, h, v => by
    have h2 : t.noFloat = true ∧ rest.noFloat = true := by simpa [Fields.noFloat] using h
    show (t.finite v.1 && rest.finite v.2) = true
    rw [GoType.finite_of_noFloat t h2.1 v.1, Fields.fields_finite_of_noFloat rest h2.2 v.2]
    rfl
end

theorem Fields.required_subset_marshal : (fs : Fields) → (v : fs.Val) →
    (ms : List (String × JSON)) → fs.marshal v = some ms →
    (fs.tags.filter (fun tag => !tag.2.2)).map (fun tag => tag.2.1) ⊆ ms.map Prod.fst
  | .nil, _, ms, _ => by simp [Fields.tags]
  | .cons name key omitempty t rest, v, ms, h => by
    cases omitempty with
    | true =>
      by_cases he : isEmptyValue t v.1 = true
      · have h2 : rest.marshal v.2 = some ms := by
          simpa only [Fields.marshal, Bool.true_and, he, if_true] using h
        simpa [Fields.tags] using Fields.required_subset_marshal rest v.2 ms h2
      · simp only [Fields.marshal, Bool.true_and, he, if_false, Bool.false_eq_true] at h
        cases hj : t.marshal v.1 with
        | none => simp [hj] at h
        | some j =>
          cases hr : rest.marshal v.2 with
          | none => simp [hj, hr] at h
          | some js =>
            have hms : ms = (key, j) :: js := by
              simp [hj, hr] at h
              exact h.symm
            subst hms
            have ih := Fields.required_subset_marshal rest v.2 js hr
            simp only [Fields.tags, List.map_cons]
            intro k hk
            have hk2 : k ∈ (rest.tags.filter (fun tag => !tag.2.2)).map (fun tag => tag.2.1) := by
              simpa [List.filter_cons] using hk
            exact List.mem_cons_of_mem _ (ih hk2)
    | false =>
      simp only [Fields.marshal, Bool.false_and, if_false, Bool.false_eq_true] at h
      cases hj : t.marshal v.1 with
      | none => simp [hj] at h
      | some j =>
        cases hr : rest.marshal v.2 with
        | none => simp [hj, hr] at h
        | some js =>
          have hms : ms = (key, j) :: js := by
            simp [hj, hr] at h
            exact h.symm
          subst hms
          have ih := Fields.required_subset_marshal rest v.2 js hr
          simp only [Fields.tags, List.map_cons]
          intro k hk
          have hk2 : k = key ∨
              k ∈ (rest.tags.filter (fun tag => !tag.2.2)).map (fun tag => tag.2.1) := by
            simpa [List.filter_cons] using hk
          rcases hk2 with hk2 | hk2
          · rw [hk2]
            exact List.mem_cons_self _ _
          · exact List.mem_cons_of_mem _ (ih hk2)

theorem GoType.marshal_struct_required (name : String) (fs : Fields)
    (hf : (GoType.struct name fs).noFloat = true) (v : fs.Val) :
    ∃ members, (GoType.struct name fs).marshal v = some (.obj members) ∧
      (GoType.struct name fs).requiredKeys ⊆ members.map Prod.fst := by
  have hfin : fs.finite v = true :=
    GoType.finite_of_noFloat (GoType.struct name fs) hf v
  obtain ⟨ms, hms⟩ := Fields.fields_marshal_of_finite fs v hfin
  refine ⟨ms, ?_, ?_⟩
  · simp only [GoType.marshal, hms, Option.map_some']
  · exact Fields.required_subset_marshal fs v ms hms

theorem Record.distinctKeys (r : Record) : r.type.distinctKeys = true := by
  cases r <;> decide

/-- C5: evaluated on the code.  The zero values of the four records with a
record-valued omitempty field are written with the key of that field, although
the field is empty: CaseDetails with recentCommunications,
DescribeAttachmentResponse with attachment,
DescribeTrustedAdvisorCheckResultResponse with result and
TrustedAdvisorCategorySpecificSummary with costOptimizing.  An
AddAttachmentsToSetRequest without a set ID is written without the key
attachmentSetId. -/
theorem omitempty_keeps_empty_records :
    (CaseDetails.marshal CaseDetails.zero).map JSON.keys = some ["recentCommunications"] ∧
    (DescribeAttachmentResponse.marshal DescribeAttachmentResponse.zero).map JSON.keys =
      some ["attachment"] ∧
    (DescribeTrustedAdvisorCheckResultResponse.marshal
      DescribeTrustedAdvisorCheckResultResponse.zero).map JSON.keys = some ["result"] ∧
    (TrustedAdvisorCategorySpecificSummary.marshal
      TrustedAdvisorCategorySpecificSummary.zero).map JSON.keys = some ["costOptimizing"] ∧
    (CaseDetails.marshal CaseDetails.zero).map (JSON.member "recentCommunications") =
      some (some (.obj [])) ∧
    (AddAttachmentsToSetRequest.marshal fourAttachments).map JSON.keys = some ["attachments"] := by
  refine ⟨by decide, by decide, by decide, by decide, rfl, by decide⟩

/-- C6: for every request type and every value of it, the serialization is a
JSON object that has the key of every field tagged without omitempty; these
keys, type by type, are the ones of the list. -/
theorem required_fields_are_always_present :
    (∀ (op : Operation) (v : op.Request.Val),
      ∃ members, op.Request.marshal v = some (.obj members) ∧
        op.Request.requiredKeys ⊆ members.map Prod.fst) ∧
    Operation.all.map (fun op => (op.Request.structName, op.Request.requiredKeys)) =
      [("AddAttachmentsToSetRequest", ["attachments"]),
        ("AddCommunicationToCaseRequest", ["communicationBody"]),
        ("CreateCaseRequest", ["communicationBody", "subject"]),
        ("DescribeAttachmentRequest", ["attachmentId"]),
        ("DescribeCasesRequest", []),
        ("DescribeCommunicationsRequest", ["caseId"]),
        ("DescribeServicesRequest", []),
        ("DescribeSeverityLevelsRequest", []),
        ("DescribeTrustedAdvisorCheckRefreshStatusesRequest", ["checkIds"]),
        ("DescribeTrustedAdvisorCheckResultRequest", ["checkId"]),
        ("DescribeTrustedAdvisorCheckSummariesRequest", ["checkIds"]),
        ("DescribeTrustedAdvisorChecksRequest", ["language"]),
        ("RefreshTrustedAdvisorCheckRequest", ["checkId"]),
        ("ResolveCaseRequest", [])] := by
  refine ⟨?_, by decide⟩
  intro op v
  cases op <;> exact GoType.marshal_struct_required _ _ (by decide) v

theorem not_roundtrip_of_readback (T : GoType) (v w : T.Val)
    (h : (T.marshal v).bind T.decode = some w) (hne : w ≠ v) :
    ¬ ∃ j, T.marshal v = some j ∧ T.decode j = some v := by
  rintro ⟨j, hj, hd⟩
  rw [hj, Option.some_bind, hd] at h
  exact hne (Option.some.inj h).symm

/-- C7, as stated, fails at three values.  A cost summary that holds an
infinity has no serialization.  A request whose case ID is the byte 0xFF, which
is not valid UTF-8, is written with U+FFFD and comes back with the three bytes
of U+FFFD.  A communication whose omitempty list of addresses is empty but not
nil is written without the list and comes back with the nil list. -/
theorem roundtrip_fails_at_three_values :
    (Record.type .TrustedAdvisorCostOptimizingSummary).marshal infiniteSavings = none ∧
    (¬ ∃ j, (Record.type .TrustedAdvisorCostOptimizingSummary).marshal infiniteSavings = some j ∧
      (Record.type .TrustedAdvisorCostOptimizingSummary).decode j = some infiniteSavings) ∧
    ((Record.type .ResolveCaseRequest).marshal invalidCaseID).bind
      (Record.type .ResolveCaseRequest).decode = some replacedCaseID ∧
    replacedCaseID ≠ invalidCaseID ∧
    (¬ ∃ j, (Record.type .ResolveCaseRequest).marshal invalidCaseID = some j ∧
      (Record.type .ResolveCaseRequest).decode j = some invalidCaseID) ∧
    ((Record.type .AddCommunicationToCaseRequest).marshal emptyCopies).bind
      (Record.type .AddCommunicationToCaseRequest).decode = some nilCopies ∧
    nilCopies ≠ emptyCopies ∧
    (¬ ∃ j, (Record.type .AddCommunicationToCaseRequest).marshal emptyCopies = some j ∧
      (Record.type .AddCommunicationToCaseRequest).decode j = some emptyCopies) := by
  have h1 : (Record.type .TrustedAdvisorCostOptimizingSummary).marshal infiniteSavings = none :=
    rfl
  have h2 : ((Record.type .ResolveCaseRequest).marshal invalidCaseID).bind
      (Record.type .ResolveCaseRequest).decode = some replacedCaseID := by decide
  have h3 : ((Record.type .AddCommunicationToCaseRequest).marshal emptyCopies).bind
      (Record.type .AddCommunicationToCaseRequest).decode = some nilCopies := by decide
  have n2 : replacedCaseID ≠ invalidCaseID := by decide
  have n3 : nilCopies ≠ emptyCopies := by decide
  refine ⟨h1, ?_, h2, n2, not_roundtrip_of_readback _ _ _ h2 n2, h3, n3,
    not_roundtrip_of_readback _ _ _ h3 n3⟩
  rintro ⟨j, hj, _⟩
  rw [h1] at hj
  exact Option.noConfusion hj

/-- C7, amended: for every record type of the file and every value of it in
which no float64 is a NaN or an infinity, every string is valid UTF-8 and no
field tagged omitempty holds a slice that is empty but not nil, the value is
serialized, and deserializing the result into a fresh value of the type gives
the value back. -/
theorem roundtrip_of_restorable_values (r : Record) (v : r.type.Val)
    (hf : r.type.finite v = true) (hv : r.type.validText v = true)
    (hn : r.type.omittedAreNil v = true) :
    ∃ j, r.type.marshal v = some j ∧ r.type.decode j = some v :=
  GoType.roundtrip r.type (Record.distinctKeys r) v hf hv hn

/-- C7 at a page of two cases with communications and attachments. -/
theorem roundtrip_of_sample_cases :
    (Record.type .DescribeCasesResponse).finite sampleCases = true ∧
    (Record.type .DescribeCasesResponse).validText sampleCases = true ∧
    (Record.type .DescribeCasesResponse).omittedAreNil sampleCases = true ∧
    ∃ j, (Record.type .DescribeCasesResponse).marshal sampleCases = some j ∧
      (Record.type .DescribeCasesResponse).decode j = some sampleCases :=
  ⟨by decide, by decide, by decide,
    roundtrip_of_restorable_values .DescribeCasesResponse sampleCases (by decide) (by decide)
      (by decide)⟩

/-! ## The client of the configuration -/

/-- C11: with a nil client New puts the default HTTP client into the
configuration, with a client that is not nil it puts that client there; every
other field of the configuration is the same in both cases. -/
theorem New_client_defaulting (d cl : HTTPClient) (key secret region : String) :
    (New d key secret region none).client.Client = d ∧
    (New d key secret region (some cl)).client.Client = cl ∧
    (New d key secret region none).client.Key = (New d key secret region (some cl)).client.Key ∧
    (New d key secret region none).client.Secret =
      (New d key secret region (some cl)).client.Secret ∧
    (New d key secret region none).client.Region =
      (New d key secret region (some cl)).client.Region ∧
    (New d key secret region none).client.Endpoint =
      (New d key secret region (some cl)).client.Endpoint ∧
    (New d key secret region none).client.Prefix =
      (New d key secret region (some cl)).client.Prefix ∧
    (New d key secret region none).client.JSONVersion =
      (New d key secret region (some cl)).client.JSONVersion ∧
    (New d key secret region none).client.TargetPrefix =
      (New d key secret region (some cl)).client.TargetPrefix ∧
    New d key secret region (some d) = New d key secret region none := by
  exact ⟨rfl, rfl, rfl, rfl, rfl, rfl, rfl, rfl, rfl, rfl⟩

/-! ## The keys of a record -/

theorem filter_length_le_one_of_nodup_map {α β : Type} (f : α → β) (c : β) (p : α → Bool)
    (hp : ∀ x, p x = true ↔ f x = c) :
    ∀ l : List α, (l.map f).Nodup → (l.filter p).length ≤ 1
  | [], _ => by simp
  | x :: xs, h => by
    have h2 : f x ∉ xs.map f ∧ (xs.map f).Nodup := by simpa using h
    have ih := filter_length_le_one_of_nodup_map f c p hp xs h2.2
    by_cases hx : p x = true
    · have hnone : xs.filter p = [] := by
        rw [List.filter_eq_nil_iff]
        intro y hy hyc
        have hfx : f x = c := (hp x).1 hx
        have hfy : f y = c := (hp y).1 hyc
        exact h2.1 (by rw [hfx, ← hfy]; exact List.mem_map_of_mem f hy)
      simp [List.filter_cons, hx, hnone]
    · simpa [List.filter_cons, hx] using ih

theorem Fields.candidates_le_one (fs : Fields) (h : (fs.keys.map foldCase).Nodup)
    (k : String) : (fs.candidates k).length ≤ 1 :=
  filter_length_le_one_of_nodup_map foldCase (foldCase k) (fun key => equalFold key k)
    (fun key => by simp [equalFold, foldCase]) fs.keys h

theorem Fields.marshal_keys_sublist : (fs : Fields) → (v : fs.Val) →
    (((fs.marshal v).map (fun ms => ms.map Prod.fst)).getD []).Sublist fs.keys
  | .nil, _ => by simp [Fields.marshal, Fields.keys]
  | .cons _ key omitempty t rest, v => by
    have ih := Fields.marshal_keys_sublist rest v.2
    by_cases ho : (omitempty && isEmptyValue t v.1) = true
    · simp only [Fields.marshal, ho, if_true, Fields.keys]
      exact List.Sublist.cons _ ih
    · simp only [Fields.marshal, ho, if_false, Bool.false_eq_true, Fields.keys]
      cases hj : t.marshal v.1 with
      | none => simp
      | some j =>
        cases hr : rest.marshal v.2 with
        | none => simp
        | some js =>
          rw [hr] at ih
          exact List.Sublist.cons₂ _ ih

/-- C12: in every record type of the file the json keys of the fields are
pairwise distinct, also when the case of letters is ignored, and every key is
the name of its field up to case; so a member of an object matches at most one
field, a member named by a key of the type matches the field of that key
only, and the keys of a serialized record are keys of the type in declaration
order, none of them twice. -/
theorem json_keys_do_not_collide (r : Record) :
    r.type.fields.keys.Nodup ∧
    (r.type.fields.keys.map foldCase).Nodup ∧
    r.type.fields.tags.all (fun tag => equalFold tag.2.1 tag.1) = true ∧
    (∀ k : String, (r.type.fields.candidates k).length ≤ 1) ∧
    r.type.fields.keys.all (fun k => r.type.fields.candidates k == [k]) = true ∧
    (∀ v : r.type.fields.Val,
      (((r.type.fields.marshal v).map (fun ms => ms.map Prod.fst)).getD []).Sublist
        r.type.fields.keys) ∧
    equalFold "attachmentSetId" "AttachmentSetID" = true ∧
    equalFold "checkIds" "CheckIds" = true := by
  have hfold : (r.type.fields.keys.map foldCase).Nodup := by
    cases r <;> decide
  refine ⟨?_, hfold, ?_, Fields.candidates_le_one _ hfold, ?_, Fields.marshal_keys_sublist _,
    by decide, by decide⟩
  · cases r <;> decide
  · cases r <;> decide
  · cases r <;> decide


end support
